import Mathlib

/-!
Verification development for the log pattern analysis scripts of the
Sports-Bar-TV-Controller repository
(`src/apps/web/ai-analysis/analyze_logs.py` and
`src/apps/web/ai-analysis/atlas/atlas_analyzer.py`).

Modelling conventions (shallow embedding of the Python source):

* JSON values (the shape of the parsed input document) are modelled by the
  inductive type `JVal`; a Python dict obtained from a JSON object is an
  insertion-ordered association list `PyDict`.
* Python float arithmetic on the rates and thresholds is modelled by exact
  rational arithmetic (the kernel-computable type `Q` below).  All thresholds appearing in the source
  (`0.2`, `0.1`, `0.05`, `5000`, `95`, `85`, ...) are exactly representable
  and the comparisons never sit on a binary rounding boundary for the
  quantities the theorems touch.
* Fallible Python code (attribute errors, type errors, invalid regular
  expressions, ...) is modelled in the `Except String` monad; the argument
  of `Except.error` is a human-readable stand-in for the Python exception
  text.  The `try/except` blocks of the source become explicit matches on
  the `Except` result.
* `str.lower` is modelled by ASCII lowercasing (`strLower` below); the
  analyzed pattern tables and level names are ASCII.
* `datetime.fromisoformat` is modelled by `parseTS`, a byte-level port of
  the CPython 3.11 parser (`Modules/_datetimemodule.c`): calendar dates
  `YYYY-MM-DD`/`YYYYMMDD`, ISO week dates `YYYY-Www[-D]`/`YYYYWww[D]`, an
  arbitrary single-character separator, times `HH[:?MM[:?SS]]` with an
  optional `./,`-fraction, and an optional `Z` or signed offset, with the
  C parser's quirks (NUL-byte termination, a single swallowed byte before
  the timezone, a zero-second offset collapsing to UTC, ...).  The parse
  result `PyDT` keeps the wall-clock position in microseconds and the
  optional UTC offset; a parse failure is `Option.none`, and every use in
  the source wraps the parse in a `try/except` that skips the record.
* datetime comparison keys: naive datetimes compare by wall-clock
  microseconds, aware ones by the UTC instant (wall minus offset), and
  comparing the two kinds raises `TypeError`.  `list.sort()` on a list
  holding both kinds always performs such a comparison, so the model
  (`sortedKeysE`) raises exactly when the list is mixed; on a uniform
  list it sorts the comparison keys, whose adjacent differences and
  last-minus-first span equal those of the sorted datetime list.  The two
  sort sites of the source (`error_times.sort()` line 183 and
  `timestamps.sort()` line 253) sit outside any `try/except`, so a mixed
  list aborts the whole analysis into the confidence-0.1 fallback.
* Wall-clock fields (`datetime.now().isoformat()` in the atlas script)
  are omitted from the modelled result records: they carry no analyzed
  information.
-/

namespace SBTC

/-! ### Kernel-computable rationals and ASCII string helpers

The standard `Rat` operations are marked irreducible, which blocks kernel
evaluation of concrete analyses, so the embedding uses its own normalized
fraction type `Q` with explicit gcd normalization.  Likewise
`String.toLower` and `String.replace` are byte-position loops the kernel
does not reduce, so the embedding maps over the character list. -/

/-- Rational number as a gcd-normalized numerator/denominator pair (the
exact-arithmetic model of the Python floats of the source). -/
structure Q where
  num : Int
  den : Nat
deriving DecidableEq

/-- Normalized fraction `n / d` (gcd cancelled, `d = 0` mapped to zero,
following the division-by-zero convention of `Rat`). -/
def Q.normalize (n : Int) (d : Nat) : Q :=
  if d = 0 then ⟨0, 1⟩
  else
    let g := n.natAbs.gcd d
    ⟨n / (g : Int), d / g⟩

instance : OfNat Q n := ⟨⟨(n : Int), 1⟩⟩

instance : NatCast Q := ⟨fun n => ⟨(n : Int), 1⟩⟩

instance : IntCast Q := ⟨fun n => ⟨n, 1⟩⟩

instance : Zero Q := ⟨⟨0, 1⟩⟩

instance : One Q := ⟨⟨1, 1⟩⟩

instance : Add Q :=
  ⟨fun a b => Q.normalize (a.num * (b.den : Int) + b.num * (a.den : Int)) (a.den * b.den)⟩

instance : Sub Q :=
  ⟨fun a b => Q.normalize (a.num * (b.den : Int) - b.num * (a.den : Int)) (a.den * b.den)⟩

instance : Mul Q := ⟨fun a b => Q.normalize (a.num * b.num) (a.den * b.den)⟩

instance : Div Q :=
  ⟨fun a b =>
    if b.num = 0 then ⟨0, 1⟩
    else if 0 < b.num then Q.normalize (a.num * (b.den : Int)) (a.den * b.num.toNat)
    else Q.normalize (-(a.num * (b.den : Int))) (a.den * (-b.num).toNat)⟩

instance : LT Q := ⟨fun a b => a.num * (b.den : Int) < b.num * (a.den : Int)⟩

instance : LE Q := ⟨fun a b => a.num * (b.den : Int) ≤ b.num * (a.den : Int)⟩

instance (a b : Q) : Decidable (a < b) :=
  inferInstanceAs (Decidable (a.num * (b.den : Int) < b.num * (a.den : Int)))

instance (a b : Q) : Decidable (a ≤ b) :=
  inferInstanceAs (Decidable (a.num * (b.den : Int) ≤ b.num * (a.den : Int)))

/-- ASCII lowercase of one character (`str.lower` model). -/
def lowerChar (c : Char) : Char :=
  if 65 ≤ c.toNat ∧ c.toNat ≤ 90 then Char.ofNat (c.toNat + 32) else c

/-- ASCII lowercase of a string. -/
def strLower (s : String) : String := ⟨s.data.map lowerChar⟩

/-- Replacement of every occurrence of a single character by a string
(the `str.replace` calls of the source all have one-character needles). -/
def replaceChar (s : String) (c : Char) (r : String) : String :=
  ⟨s.data.flatMap (fun a => if a = c then r.data else [a])⟩

/-- JSON value as produced by `json.loads`. -/
inductive JVal where
  | null : JVal
  | bool (b : Bool) : JVal
  | num (q : Q) : JVal
  | str (s : String) : JVal
  | arr (l : List JVal) : JVal
  | obj (l : List (String × JVal)) : JVal

/-- Python dict obtained from a JSON object: insertion-ordered key/value list. -/
abbrev PyDict := List (String × JVal)

/-- Python `d.get(k)`: first entry with the given key, if any. -/
def pyGet (d : PyDict) (k : String) : Option JVal :=
  match d with
  | [] => none
  | (a, v) :: rest => if a = k then some v else pyGet rest k

/-- Python `d.get(k, default)`. -/
def pyGetD (d : PyDict) (k : String) (dflt : JVal) : JVal :=
  (pyGet d k).getD dflt

/-- Python truthiness of a JSON value (`bool(v)`). -/
def truthy : JVal → Bool
  | .null => false
  | .bool b => b
  | .num q => q != 0
  | .str s => s ≠ ""
  | .arr l => !l.isEmpty
  | .obj l => !l.isEmpty

/-- Hashable JSON scalar: a value Python may use as a `Counter` key.
Lists and dicts are unhashable and raise `TypeError` when counted. -/
inductive HVal where
  | null : HVal
  | bool (b : Bool) : HVal
  | num (q : Q) : HVal
  | str (s : String) : HVal
deriving DecidableEq

/-- Rendering of a hashable scalar inside a Python f-string.  Integral
numbers render without a decimal point; the non-integral rendering is a
best-effort stand-in (no theorem below depends on it). -/
def HVal.render : HVal → String
  | .null => "None"
  | .bool b => if b then "True" else "False"
  | .num q => if q.den = 1 then toString q.num
      else toString q.num ++ "/" ++ toString q.den
  | .str s => s

/-- Modelled exception of hashing a list or dict (`Counter` key). -/
def hashableE : JVal → Except String HVal
  | .null => .ok .null
  | .bool b => .ok (.bool b)
  | .num q => .ok (.num q)
  | .str s => .ok (.str s)
  | .arr _ => .error "TypeError: unhashable type 'list'"
  | .obj _ => .error "TypeError: unhashable type 'dict'"

/-- Modelled `AttributeError` of calling a dict method on a non-dict. -/
def asObj : JVal → Except String PyDict
  | .obj d => .ok d
  | _ => .error "AttributeError: object has no attribute get"

/-- Total companion of `asObj` (meaningful on dicts only). -/
def toObjD : JVal → PyDict
  | .obj d => d
  | _ => []

/-- Modelled `str.lower()`: raises `AttributeError` on non-strings. -/
def asStrLower : JVal → Except String String
  | .str s => .ok (strLower s)
  | _ => .error "AttributeError: object has no attribute lower"

/-- Modelled numeric coercion (`statistics.mean` membership, `>` against a
number): accepts JSON numbers and booleans, raises `TypeError` otherwise. -/
def asNum : JVal → Except String Q
  | .num q => .ok q
  | .bool b => .ok (if b then 1 else 0)
  | _ => .error "TypeError: unsupported operand type"

/-- Tests whether a value is the given string (Python `v == s`, which is
`False` rather than an error for non-strings). -/
def isStrVal (v : JVal) (s : String) : Bool :=
  match v with
  | .str t => t = s
  | _ => false

/-- Error-monad `map` over a list, stopping at the first raised exception
(the Python `for` loop). -/
def mapE (f : α → Except String β) : List α → Except String (List β)
  | [] => .ok []
  | x :: xs => do
    let y ← f x
    let ys ← mapE f xs
    .ok (y :: ys)

/-- Short-circuiting `any` over a generator (Python `any(...)`), evaluating
elements left to right and stopping at the first `True` or exception. -/
def anyE (f : α → Except String Bool) : List α → Except String Bool
  | [] => .ok false
  | x :: xs => do
    let b ← f x
    if b then .ok true else anyE f xs

@[simp] theorem bind_ok (a : α) (f : α → Except String β) :
    (Except.ok a >>= f) = f a := rfl

@[simp] theorem bind_error (e : String) (f : α → Except String β) :
    ((Except.error e : Except String α) >>= f) = .error e := rfl

theorem mapE_congr_ok (f : α → Except String β) (g : α → β) :
    ∀ l : List α, (∀ x ∈ l, f x = .ok (g x)) → mapE f l = .ok (l.map g) := by
  intro l
  induction l with
  | nil => intro _; rfl
  | cons x xs ih =>
    intro h
    have hx := h x (by simp)
    have hxs := ih (fun y hy => h y (by simp [hy]))
    simp [mapE, hx, hxs]

theorem anyE_congr_ok (f : α → Except String Bool) (g : α → Bool) :
    ∀ l : List α, (∀ x ∈ l, f x = .ok (g x)) → anyE f l = .ok (l.any g) := by
  intro l
  induction l with
  | nil => intro _; rfl
  | cons x xs ih =>
    intro h
    have hx := h x (by simp)
    have hxs := ih (fun y hy => h y (by simp [hy]))
    by_cases hb : g x
    · simp [anyE, hx, hb]
    · simp [anyE, hx, hb, hxs]

/-- Insertion-ordered tally step: `collections.Counter` and `defaultdict`
increment semantics; a new key is appended at the end. -/
def bump [DecidableEq α] (k : α) : List (α × Nat) → List (α × Nat)
  | [] => [(k, 1)]
  | (a, n) :: rest => if a = k then (a, n + 1) :: rest else (a, n) :: bump k rest

/-- Insertion-ordered tally of a list: models the iteration order of
`collections.Counter(xs)` and of a `defaultdict(int)` filled in a loop
(Python dicts preserve insertion order). -/
def tallyIns [DecidableEq α] (l : List α) : List (α × Nat) :=
  l.foldl (fun acc x => bump x acc) []

/-- First occurrences of a list, in order (keys of the insertion-ordered
tally). -/
def firsts [DecidableEq α] : List α → List α
  | [] => []
  | x :: xs => x :: (firsts xs).filter (fun a => a ≠ x)

/-- Running-maximum scan used by Python `max(iterable, key=f)`: the current
best is replaced only by a strictly greater value, so the first maximum in
iteration order wins. -/
def firstMaxAux [DecidableEq α] (bk : α) (bv : Nat) : List (α × Nat) → α
  | [] => bk
  | (a, n) :: rest => if bv < n then firstMaxAux a n rest else firstMaxAux bk bv rest

/-- Python `max(d, key=d.get)` over an insertion-ordered tally. -/
def firstMax? [DecidableEq α] : List (α × Nat) → Option α
  | [] => none
  | (a, n) :: rest => some (firstMaxAux a n rest)

/-- First entry attaining the maximal count (`Counter.most_common(1)[0]`:
ordered by count descending, ties by first encounter). -/
def firstMaxEntry? [DecidableEq α] (l : List (α × Nat)) : Option (α × Nat) :=
  match firstMax? l with
  | none => none
  | some k => some (k, ((l.lookup k).getD 0))

/-- Removes the entry with the given key from a tally. -/
def eraseKey [DecidableEq α] (k : α) : List (α × Nat) → List (α × Nat)
  | [] => []
  | (a, n) :: rest => if a = k then rest else (a, n) :: eraseKey k rest

/-- Python `Counter.most_common(2)`: the two entries with the largest
counts, count-descending, ties by first encounter. -/
def mostCommon2 [DecidableEq α] (l : List (α × Nat)) : List (α × Nat) :=
  match firstMaxEntry? l with
  | none => []
  | some e =>
    match firstMaxEntry? (eraseKey e.1 l) with
    | none => [e]
    | some e2 => [e, e2]

/-! ### Timestamps

Byte-level model of CPython 3.11 `datetime.fromisoformat` (see the module
header).  The parser works on the UTF-8 bytes of the string, as the C
implementation does, with the byte value `0` playing the role of the NUL
terminator. -/

/-- Python datetime as parsed by `fromisoformat`: wall-clock microseconds
since `0001-01-01T00:00:00` plus the optional UTC offset in microseconds
(`none` = offset-naive). -/
structure PyDT where
  wallMicro : Nat
  off : Option Int
deriving DecidableEq

/-- Gregorian leap-year test. -/
def isLeap (y : Nat) : Bool :=
  y % 4 = 0 && (y % 100 ≠ 0 || y % 400 = 0)

/-- Number of days of the given month (1-12). -/
def daysInMonth (y m : Nat) : Nat :=
  match m with
  | 1 => 31 | 2 => if isLeap y then 29 else 28 | 3 => 31 | 4 => 30
  | 5 => 31 | 6 => 30 | 7 => 31 | 8 => 31
  | 9 => 30 | 10 => 31 | 11 => 30 | 12 => 31
  | _ => 0

/-- Days in the months of year `y` strictly before month `m`. -/
def daysBeforeMonth (y m : Nat) : Nat :=
  (List.range (m - 1)).foldl (fun acc i => acc + daysInMonth y (i + 1)) 0

/-- Days in the years strictly before year `y` (proleptic Gregorian,
matching `datetime.toordinal`). -/
def daysBeforeYear (y : Nat) : Nat :=
  (y - 1) * 365 + ((y - 1) / 4 - (y - 1) / 100) + (y - 1) / 400

/-- UTF-8 bytes of a character (the C parser works on the UTF-8 buffer). -/
def utf8Bytes (c : Char) : List Nat :=
  let n := c.toNat
  if n < 128 then [n]
  else if n < 2048 then [192 + n / 64, 128 + n % 64]
  else if n < 65536 then [224 + n / 4096, 128 + n / 64 % 64, 128 + n % 64]
  else [240 + n / 262144, 128 + n / 4096 % 64, 128 + n / 64 % 64, 128 + n % 64]

/-- UTF-8 byte sequence of a string. -/
def strBytes (s : String) : List Nat := s.data.flatMap utf8Bytes

/-- ASCII-digit test on a byte. -/
def isDigB (c : Nat) : Bool := 48 ≤ c && c ≤ 57

/-- C `parse_digits`: the bytes at positions `[a, a+k)`, required to lie
inside the list and to be ASCII digits, as a number. -/
def digSpan (b : List Nat) (a k : Nat) : Option Nat :=
  if a + k ≤ b.length then
    let seg := (b.drop a).take k
    if seg.all isDigB then some (seg.foldl (fun v c => 10 * v + (c - 48)) 0) else none
  else none

/-- Byte at a position, `0` (the NUL terminator) beyond the end. -/
def byteAt (b : List Nat) (i : Nat) : Nat := (b.drop i).headD 0

/-- C `_find_isoformat_datetime_separator`: position of the date/time
separator byte, `none` for the malformed week-date shapes it rejects.
Assumes `7 ≤ b.length`. -/
def findSep (b : List Nat) : Option Nat :=
  let L := b.length
  if L = 7 then some 7
  else if byteAt b 4 = 45 then
    if byteAt b 5 = 87 then
      if L < 8 then none
      else if 8 < L && byteAt b 8 = 45 then
        if L = 9 then none
        else if 10 < L && isDigB (byteAt b 10) then some 8
        else some 10
      else some 8
    else some 10
  else if byteAt b 4 = 87 then
    let idx := 7 + ((b.drop 7).takeWhile isDigB).length
    if idx < 9 then some idx
    else if idx % 2 = 0 then some 7 else some 8
  else some 8

/-- C `iso_week1_monday`: ordinal of the Monday starting ISO week 1. -/
def isoWeek1Monday (y : Nat) : Int :=
  let firstday : Int := (daysBeforeYear y : Int) + 1
  let firstweekday := (firstday + 6) % 7
  let w := firstday - firstweekday
  if 3 < firstweekday then w + 7 else w

/-- Ordinal of `9999-12-31`, the largest `datetime` ordinal. -/
def maxOrd : Nat := daysBeforeYear 10000

/-- C `parse_isoformat_date` on the byte prefix of the given length plus
the range validation of the `datetime` constructor (month dates) and of
`iso_to_ymd` (week dates), returning the proleptic-Gregorian ordinal
(`1` = `0001-01-01`). -/
def parseIsoDate (b : List Nat) (n : Nat) : Option Nat :=
  let d := b.take n
  match digSpan d 0 4 with
  | none => none
  | some y =>
    let hasSep := byteAt d 4 = 45
    let pos := if hasSep then 5 else 4
    if byteAt d pos = 87 then
      match digSpan d (pos + 1) 2 with
      | none => none
      | some wk =>
        let pos2 := pos + 3
        let dayno? : Option Nat :=
          if pos2 < d.length then
            if (byteAt d pos2 = 45) = hasSep then
              digSpan d (pos2 + (if hasSep then 1 else 0)) 1
            else none
          else some 1
        match dayno? with
        | none => none
        | some dayno =>
          let okWeek :=
            (1 ≤ wk && wk ≤ 52) ||
            (wk = 53 && 1 ≤ y &&
              (let fw := (daysBeforeYear y + 1 + 6) % 7
               fw = 3 || (fw = 2 && isLeap y)))
          if okWeek && 1 ≤ dayno && dayno ≤ 7 && 1 ≤ y && y ≤ 9999 then
            let o : Int := isoWeek1Monday y + ((wk : Int) - 1) * 7 + ((dayno : Int) - 1)
            if 1 ≤ o && o ≤ (maxOrd : Int) then some o.toNat else none
          else none
    else
      match digSpan d pos 2 with
      | none => none
      | some mo =>
        let pos2 := pos + 2
        if (byteAt d pos2 = 45) = hasSep then
          match digSpan d (pos2 + (if hasSep then 1 else 0)) 2 with
          | none => none
          | some dd =>
            if 1 ≤ y && y ≤ 9999 && 1 ≤ mo && mo ≤ 12 && 1 ≤ dd && dd ≤ daysInMonth y mo then
              some (daysBeforeYear y + daysBeforeMonth y mo + dd)
            else none
        else none

/-- Result of C `parse_hh_mm_ss_ff`: the three components, the
microseconds, and the C flag (`true` when the byte read just past the
parse was not NUL). -/
structure HMSF where
  h : Nat
  m : Nat
  s : Nat
  us : Nat
  rv : Bool
deriving DecidableEq

/-- Packs the gathered components (in parse order) into an `HMSF`. -/
def mkHMSF (l : List Nat) (us : Nat) (rv : Bool) : HMSF :=
  ⟨l.getD 0 0, l.getD 1 0, l.getD 2 0, us, rv⟩

/-- Fraction tail of C `parse_hh_mm_ss_ff` from byte position `fpos`:
up to six digits (zero-padded to microseconds), then any further digits
consumed and dropped, with the C flag from the byte where the scan
stops (`sent` is the byte conceptually at the slice end). -/
def parseFrac (t : List Nat) (sent : Nat) (fpos : Nat) : Option (Nat × Bool) :=
  let L := t.length
  let toParse := min (L - fpos) 6
  match digSpan t fpos toParse with
  | none => none
  | some v =>
    let us := v * 10 ^ (6 - toParse)
    let p := fpos + toParse + ((t.drop (fpos + toParse)).takeWhile isDigB).length
    let c := if p < L then byteAt t p else sent
    some (us, c != 0)

/-- The component loop of C `parse_hh_mm_ss_ff` with `left` components
still allowed (`left = 3` at entry; the current component index is 0 iff
`acc` is empty, which is when the separator style is fixed). -/
def hmsSteps (t : List Nat) (sent : Nat) :
    Nat → Nat → Bool → List Nat → Option HMSF
  | 0, _, _, _ => none
  | left + 1, pos, hasSep, acc =>
    let L := t.length
    match digSpan t pos 2 with
    | none => none
    | some v =>
      let acc2 := acc ++ [v]
      let c := if pos + 2 < L then byteAt t (pos + 2) else sent
      let hs := if acc.isEmpty then c = 58 else hasSep
      if L ≤ pos + 3 then some (mkHMSF acc2 0 (c != 0))
      else if hs && c = 58 then
        if left = 0 then (parseFrac t sent (pos + 3)).map (fun p => mkHMSF acc2 p.1 p.2)
        else hmsSteps t sent left (pos + 3) hs acc2
      else if c = 46 || c = 44 then
        (parseFrac t sent (pos + 3)).map (fun p => mkHMSF acc2 p.1 p.2)
      else if !hs then
        if left = 0 then (parseFrac t sent (pos + 2)).map (fun p => mkHMSF acc2 p.1 p.2)
        else hmsSteps t sent left (pos + 2) hs acc2
      else none

/-- C `parse_hh_mm_ss_ff` on a byte slice whose conceptual terminator
byte is `sent` (the timezone sign byte, or NUL). -/
def hhmmssff (t : List Nat) (sent : Nat) : Option HMSF := hmsSteps t sent 3 0 false []

/-- Position of the first `Z`/`+`/`-` byte, if any (the timezone scan of
C `parse_isoformat_time`). -/
def tzScan (t : List Nat) : Option Nat :=
  let pre := t.takeWhile (fun c => !(c = 90 || c = 43 || c = 45))
  if pre.length = t.length then none else some pre.length

/-- C `parse_isoformat_time`: wall-time components plus the optional UTC
offset in microseconds.  A `Z` must be followed by the NUL byte; a signed
offset reuses `parse_hh_mm_ss_ff`, must end cleanly, collapses to UTC
when its integer-second part is zero, and must otherwise be strictly
within a day. -/
def parseIsoTime (t : List Nat) : Option (Nat × Nat × Nat × Nat × Option Int) :=
  match tzScan t with
  | none =>
    match hhmmssff t 0 with
    | none => none
    | some r => if r.rv then none else some (r.h, r.m, r.s, r.us, none)
  | some tzpos =>
    let tzb := byteAt t tzpos
    match hhmmssff (t.take tzpos) tzb with
    | none => none
    | some r =>
      if tzb = 90 then
        if byteAt t (tzpos + 1) = 0 then some (r.h, r.m, r.s, r.us, some 0) else none
      else
        match hhmmssff (t.drop (tzpos + 1)) 0 with
        | none => none
        | some r2 =>
          if r2.rv then none
          else
            let secs := r2.h * 3600 + r2.m * 60 + r2.s
            if secs = 0 then some (r.h, r.m, r.s, r.us, some 0)
            else
              let sign : Int := if tzb = 45 then -1 else 1
              let off : Int := sign * ((secs : Int) * 1000000 + (r2.us : Int))
              if -86400000000 < off then
                if off < 86400000000 then some (r.h, r.m, r.s, r.us, some off) else none
              else none

/-- Modelled `datetime.fromisoformat` of Python 3.11 (byte-level port of
the CPython parser; see the module header).  The separator may be any
character, whose full UTF-8 width the C parser skips. -/
def parseTS (s : String) : Option PyDT :=
  let b := strBytes s
  let L := b.length
  if L < 7 then none
  else
    match findSep b with
    | none => none
    | some sep =>
      match parseIsoDate b sep with
      | none => none
      | some ordd =>
        if L ≤ sep then some ⟨(ordd - 1) * 86400000000, none⟩
        else
          let sb := byteAt b sep
          let skip := if 240 ≤ sb then 3 else if 224 ≤ sb then 2
            else if 192 ≤ sb then 1 else 0
          match parseIsoTime (b.drop (sep + 1 + skip)) with
          | none => none
          | some (h, m, sec, us, off) =>
            if h ≤ 23 && m ≤ 59 && sec ≤ 59 then
              some ⟨((ordd - 1) * 86400 + h * 3600 + m * 60 + sec) * 1000000 + us, off⟩
            else none

/-- The `.hour` attribute of a parsed datetime (wall-clock hour of day,
offset ignored, as in the source's hour bucketing). -/
def PyDT.hourOf (dt : PyDT) : Nat := dt.wallMicro / 3600000000 % 24

/-- Offset-awareness test. -/
def PyDT.isAware (dt : PyDT) : Bool := dt.off.isSome

/-- Comparison key of a datetime: wall-clock microseconds for a naive
one, the UTC instant (wall minus offset) for an aware one. -/
def dtKey (dt : PyDT) : Int := (dt.wallMicro : Int) - dt.off.getD 0

/-- `true` when the list holds both aware and naive datetimes; sorting
such a list (it has length at least two) always compares the two kinds
and raises `TypeError`. -/
def kindMixed (l : List PyDT) : Bool :=
  l.any PyDT.isAware && l.any (fun dt => !dt.isAware)

/-- Ascending sort of integers. -/
def sortInt (l : List Int) : List Int := List.insertionSort (· ≤ ·) l

/-- Python `list.sort()` on collected datetimes, abstracted to the
comparison keys: a mixed list raises `TypeError`, a uniform list sorts by
`dtKey` (for a uniform list, adjacent differences and the last-minus-first
span of the sorted datetimes equal those of the sorted keys). -/
def sortedKeysE (l : List PyDT) : Except String (List Int) :=
  if kindMixed l then
    .error "TypeError: cannot compare offset-naive and offset-aware datetimes"
  else .ok (sortInt (l.map dtKey))

/-! ### Decimal formatting

Python `f"{x:.1f}"` / `f"{x:.0f}"` on the nonnegative rationals produced by
the analyzers, modelled as round-half-even on the exact rational. -/

/-- Floor of a rational as an integer. -/
def qfloor (q : Q) : Int := Int.fdiv q.num (q.den : Int)

/-- Round half to even (the rounding of float formatting). -/
def rndHalfEven (q : Q) : Int :=
  let f := qfloor q
  let fr := q - (f : Q)
  if fr > 1/2 then f + 1
  else if fr < 1/2 then f
  else if f % 2 = 0 then f else f + 1

/-- Python `f"{q:.1f}"` for nonnegative `q`. -/
def fmt1 (q : Q) : String :=
  let n := (rndHalfEven (10 * q)).toNat
  toString (n / 10) ++ "." ++ toString (n % 10)

/-- Python `f"{q:.0f}"` for nonnegative `q`. -/
def fmt0 (q : Q) : String :=
  toString (rndHalfEven q).toNat

/-! ### Regular expressions

Model of the `re` usage of the two analyzers: patterns built from literal
characters, `.`, `|` and the postfix quantifiers `*` and `+` (the entire
syntax exercised by the fixed pattern tables), searched with
`re.IGNORECASE` (ASCII).  A quantifier with nothing before it is a compile
error (`re.error: nothing to repeat`), raised by `re.search` at call time;
this is what makes the atlas pattern `phantom.*power|+48v|condenser.*mic`
raise on every search. -/

/-- Regular expression abstract syntax. -/
inductive RE where
  | emp : RE
  | eps : RE
  | chr (c : Char) : RE
  | dot : RE
  | alt (a b : RE) : RE
  | cat (a b : RE) : RE
  | star (r : RE) : RE
  | plus (r : RE) : RE
deriving DecidableEq

/-- Appends the pending atom, if any, to the parsed part of a branch. -/
def flushA (acc : RE) : Option RE → RE
  | none => acc
  | some a => .cat acc a

/-- Parses one alternation branch; `last` is the most recent atom, the one
a following quantifier applies to.  A quantifier with no pending atom is
the `nothing to repeat` compile error. -/
def parseBr (acc : RE) (last : Option RE) : List Char → Except String RE
  | [] => .ok (flushA acc last)
  | c :: rest =>
    if c = '*' then
      match last with
      | none => .error "nothing to repeat"
      | some a => parseBr (.cat acc (.star a)) none rest
    else if c = '+' then
      match last with
      | none => .error "nothing to repeat"
      | some a => parseBr (.cat acc (.plus a)) none rest
    else if c = '.' then parseBr (flushA acc last) (some .dot) rest
    else parseBr (flushA acc last) (some (.chr c)) rest

/-- Splits a pattern at top-level `|` (the pattern tables use no groups,
classes or escapes, so every `|` is top level). -/
def splitBar : List Char → List (List Char)
  | [] => [[]]
  | c :: rest =>
    match splitBar rest with
    | [] => if c = '|' then [[], []] else [[c]]
    | h :: t => if c = '|' then [] :: h :: t else (c :: h) :: t

/-- Modelled `re.compile`: parse each branch, join with alternation. -/
def compile (p : String) : Except String RE := do
  let parts ← mapE (parseBr .eps none) (splitBar p.toList)
  match parts with
  | [] => .ok .eps
  | h :: t => .ok (t.foldl .alt h)

/-- Nullability: the language of `r` contains the empty word. -/
def nullable : RE → Bool
  | .emp => false
  | .eps => true
  | .chr _ => false
  | .dot => false
  | .alt a b => nullable a || nullable b
  | .cat a b => nullable a && nullable b
  | .star _ => true
  | .plus r => nullable r

/-- Case-insensitive (ASCII) character match, the `re.IGNORECASE` flag of
the source. -/
def charMatch (pc c : Char) : Bool := lowerChar pc = lowerChar c

/-- Brzozowski derivative of `r` by the character `c`. -/
def deriv (r : RE) (c : Char) : RE :=
  match r with
  | .emp => .emp
  | .eps => .emp
  | .chr d => if charMatch d c then .eps else .emp
  | .dot => if c = '\n' then .emp else .eps
  | .alt a b => .alt (deriv a c) (deriv b c)
  | .cat a b =>
    if nullable a then .alt (.cat (deriv a c) b) (deriv b c)
    else .cat (deriv a c) b
  | .star r => .cat (deriv r c) (.star r)
  | .plus r => .cat (deriv r c) (.star r)

/-- Some prefix of the word matches `r`. -/
def matchPref (r : RE) : List Char → Bool
  | [] => nullable r
  | c :: rest => nullable r || matchPref (deriv r c) rest

/-- Some factor of the word matches `r`: boolean outcome of `re.search`. -/
def reSearch (r : RE) : List Char → Bool
  | [] => nullable r
  | c :: rest => matchPref r (c :: rest) || reSearch r rest

/-- Total `re.search` companion (meaningful for valid patterns). -/
def searchStrTotal (p s : String) : Bool :=
  match compile p with
  | .ok r => reSearch r s.toList
  | .error _ => false

/-- Modelled `re.search(p, s)` as a boolean: compiling an invalid pattern
raises. -/
def searchStrE (p s : String) : Except String Bool := do
  let r ← compile p
  .ok (reSearch r s.toList)

theorem searchStrE_ok (p s : String) (h : (compile p).isOk) :
    searchStrE p s = .ok (searchStrTotal p s) := by
  unfold searchStrE searchStrTotal
  cases hc : compile p with
  | ok r => simp
  | error e => rw [hc] at h; simp [Except.isOk, Except.toBool] at h

/-! ### The general log analyzer (`analyze_logs.py`)

Each private method of `LogPatternAnalyzer` is embedded in the
`Except String` monad (its exceptions propagate to the `try/except` of
`analyze_logs`), together with a total companion describing its value on
well-formed batches. -/

/-- Output record of the analyzer (`AnalysisResult` of the spec). -/
structure AnalysisResult where
  severity : String
  summary : String
  patterns : List String
  recommendations : List String
  anomalies : List String
  insights : List String
  confidence : Q
deriving DecidableEq

/-- Modelled `TypeError` of passing a non-string to `re.search`. -/
def asStr : JVal → Except String String
  | .str s => .ok s
  | _ => .error "TypeError: expected string or bytes-like object"

/-- Total companion of `asStr`. -/
def strOfJ : JVal → String
  | .str s => s
  | _ => ""

/-- Total companion of `asNum` (meaningful on numbers and booleans). -/
def numOfJ : JVal → Q
  | .num q => q
  | .bool b => if b then 1 else 0
  | _ => 0

/-- Total companion of `hashableE` (meaningful on hashable values). -/
def toHVal : JVal → HVal
  | .null => .null
  | .bool b => .bool b
  | .num q => .num q
  | .str s => .str s
  | .arr _ => .null
  | .obj _ => .null

/-- String content of a hashable scalar (meaningful on strings). -/
def strOfH : HVal → String
  | .str s => s
  | _ => ""

/-- Null test. -/
def isNull : JVal → Bool
  | .null => true
  | _ => false

/-- Python `log.get('level') in ['error', 'critical']` (exact string
match, no case folding: note the asymmetry with the severity
computation, which lowercases). -/
def levelIsErrCrit (d : PyDict) : Bool :=
  match pyGet d "level" with
  | some v => isStrVal v "error" || isStrVal v "critical"
  | none => false

/-- Python `log.get('category') == c`. -/
def categoryIs (d : PyDict) (c : String) : Bool :=
  match pyGet d "category" with
  | some v => isStrVal v c
  | none => false

/-- Python `log.get('duration') is not None` (field present and not JSON
null). -/
def durPresent (d : PyDict) : Bool :=
  match pyGet d "duration" with
  | some v => !isNull v
  | none => false

/-- Python `log.get('success') is not None`. -/
def successPresent (d : PyDict) : Bool :=
  match pyGet d "success" with
  | some v => !isNull v
  | none => false

/-- Python `log.get('success') is True` (exactly the boolean `True`). -/
def successTrue (d : PyDict) : Bool :=
  match pyGet d "success" with
  | some (.bool true) => true
  | _ => false

/-- Python `if log.get('deviceType'):` (truthy device tag). -/
def devTruthy (d : PyDict) : Bool :=
  match pyGet d "deviceType" with
  | some v => truthy v
  | none => false

/-- Lowercased level of a record (`log.get('level', '').lower()`),
raising on dict-less records and non-string levels. -/
def levelLowerE (log : JVal) : Except String String := do
  let d ← asObj log
  asStrLower (pyGetD d "level" (.str ""))

/-- Total companion of `levelLowerE`. -/
def levelLower (log : JVal) : String :=
  match pyGetD (toObjD log) "level" (.str "") with
  | .str s => strLower s
  | _ => ""

/-- Four-band severity classification over the exact error rate:
`errs / total > 1/5` iff `5 * errs > total`, and so on; this is the exact
rational reading of the float comparisons of the source. -/
def classifySeverity (errs total : Nat) : String :=
  if 5 * errs > total then "critical"
  else if 10 * errs > total then "high"
  else if 20 * errs > total then "medium"
  else "low"

/-- Lines 67-87 of `analyze_logs.py` (`_calculate_overall_severity`). -/
def calculateOverallSeverity (logs : List JVal) : Except String String := do
  let lvls ← mapE levelLowerE logs
  if logs.length = 0 then .ok "low"
  else .ok (classifySeverity (lvls.count "error" + lvls.count "critical") logs.length)

/-- Value of the severity computation on well-formed batches. -/
def severityOf (logs : List JVal) : String :=
  if logs.length = 0 then "low"
  else
    classifySeverity
      ((logs.map levelLower).count "error" + (logs.map levelLower).count "critical")
      logs.length

/-- Modelled `TypeError` of slicing a non-string (`msg[:50]`). -/
def sliceMsg : HVal → Except String String
  | .str s => .ok s
  | _ => .error "TypeError: object is not subscriptable"

/-- Lines 89-107 of `analyze_logs.py` (`_generate_summary`). -/
def generateSummary (logs : List JVal) : Except String String := do
  let objs ← mapE asObj logs
  let error_logs := objs.filter levelIsErrCrit
  let user_actions := objs.filter (categoryIs · "user_interaction")
  let device_ops := objs.filter (categoryIs · "hardware")
  let parts := ["Analyzed " ++ toString logs.length ++ " log entries",
    if error_logs.isEmpty then "No errors detected"
      else toString error_logs.length ++ " errors detected",
    toString user_actions.length ++ " user interactions recorded",
    toString device_ops.length ++ " device operations logged"]
  if error_logs.isEmpty then .ok (String.intercalate ". " parts)
  else do
    let msgs ← mapE (fun d => hashableE (pyGetD d "message" (.str ""))) error_logs
    match firstMaxEntry? (tallyIns msgs) with
    | some (m, _) => do
      let s ← sliceMsg m
      .ok (String.intercalate ". "
        (parts ++ ["Most frequent error: " ++ (s.take 50) ++ "..."]))
    | none => .ok (String.intercalate ". " parts)

/-- Value of the summary computation on well-formed batches. -/
def summaryOf (logs : List JVal) : String :=
  let objs := logs.map toObjD
  let error_logs := objs.filter levelIsErrCrit
  let user_actions := objs.filter (categoryIs · "user_interaction")
  let device_ops := objs.filter (categoryIs · "hardware")
  let parts := ["Analyzed " ++ toString logs.length ++ " log entries",
    if error_logs.isEmpty then "No errors detected"
      else toString error_logs.length ++ " errors detected",
    toString user_actions.length ++ " user interactions recorded",
    toString device_ops.length ++ " device operations logged"]
  if error_logs.isEmpty then String.intercalate ". " parts
  else
    let msgs := error_logs.map (fun d => toHVal (pyGetD d "message" (.str "")))
    match firstMaxEntry? (tallyIns msgs) with
    | some (m, _) =>
      String.intercalate ". "
        (parts ++ ["Most frequent error: " ++ ((strOfH m).take 50) ++ "..."])
    | none => String.intercalate ". " parts

/-- Hour bucket of a record with a parseable timestamp (the loop body of
lines 114-119; the whole body sits in a `try/except: continue`, so every
failure, including a record that is not a dict, just skips it). -/
def hourOfLog (v : JVal) : Option Nat :=
  match v with
  | .obj d =>
    match pyGetD d "timestamp" (.str "") with
    | .str s => (parseTS (replaceChar s 'Z' "+00:00")).map PyDT.hourOf
    | _ => none
  | _ => none

/-- Parsed datetime of a record with a parseable timestamp (lines
244-248, same absorbing `try/except`). -/
def tsOfLog (v : JVal) : Option PyDT :=
  match v with
  | .obj d =>
    match pyGetD d "timestamp" (.str "") with
    | .str s => parseTS (replaceChar s 'Z' "+00:00")
    | _ => none
  | _ => none

/-- The `timestamps` list of `_calculate_time_span` (lines 242-248): the
parsed datetimes of all records whose timestamp parses. -/
def allDTs (logs : List JVal) : List PyDT := logs.filterMap tsOfLog

/-- The five named error-pattern regexes of `LogPatternAnalyzer.__init__`,
in dict insertion order. -/
def error_patterns : List (String × String) :=
  [("network_timeout", "timeout|connection.*refused|network.*error"),
   ("device_failure", "device.*not.*found|hardware.*failure|connection.*lost"),
   ("authentication", "auth.*failed|unauthorized|invalid.*credentials"),
   ("performance", "slow.*response|high.*latency|timeout"),
   ("configuration", "config.*error|setting.*invalid|parameter.*missing")]

/-- Error-category detection (lines 126-129): for each pattern in table
order, test every error message until one matches (`any` short-circuits),
raising on a non-string message. -/
def detectErrPatterns (msgs : List JVal) : List (String × String) → Except String (List String)
  | [] => .ok []
  | (name, rgx) :: rest => do
    let b ← anyE (fun m => do
      let s ← asStr m
      searchStrE rgx s) msgs
    let r ← detectErrPatterns msgs rest
    .ok (if b then ("Detected " ++ (replaceChar name '_' " ") ++ " pattern") :: r else r)

/-- Total companion of `detectErrPatterns`. -/
def detectErrPatternsT (msgs : List JVal) : List (String × String) → List String
  | [] => []
  | (name, rgx) :: rest =>
    let r := detectErrPatternsT msgs rest
    if msgs.any (fun m => searchStrTotal rgx (strOfJ m)) then
      ("Detected " ++ (replaceChar name '_' " ") ++ " pattern") :: r
    else r

/-- Lines 109-138 of `analyze_logs.py` (`_identify_patterns`): peak-hour
bucket (first maximum in dict insertion order), error-category regexes,
most active device type; first five entries. -/
def identifyPatterns (logs : List JVal) : Except String (List String) := do
  let hourDist := tallyIns (logs.filterMap hourOfLog)
  let peakPart := match firstMax? hourDist with
    | some h => ["Peak activity at hour " ++ toString h ++ ":00"]
    | none => []
  let objs ← mapE asObj logs
  let error_messages := (objs.filter levelIsErrCrit).map (fun d => pyGetD d "message" (.str ""))
  let regexPart ← detectErrPatterns error_messages error_patterns
  let device_logs := objs.filter devTruthy
  let devPart ← if device_logs.isEmpty then .ok [] else do
    let devs ← mapE (fun d => hashableE (pyGetD d "deviceType" .null)) device_logs
    match firstMaxEntry? (tallyIns devs) with
    | some (dv, n) =>
      .ok ["Most active device type: " ++ dv.render ++ " (" ++ toString n ++ " operations)"]
    | none => .ok ([] : List String)
  .ok ((peakPart ++ regexPart ++ devPart).take 5)

/-- Value of the pattern computation on well-formed batches. -/
def patternsOf (logs : List JVal) : List String :=
  let hourDist := tallyIns (logs.filterMap hourOfLog)
  let peakPart := match firstMax? hourDist with
    | some h => ["Peak activity at hour " ++ toString h ++ ":00"]
    | none => []
  let objs := logs.map toObjD
  let error_messages := (objs.filter levelIsErrCrit).map (fun d => pyGetD d "message" (.str ""))
  let regexPart := detectErrPatternsT error_messages error_patterns
  let device_logs := objs.filter devTruthy
  let devPart := if device_logs.isEmpty then [] else
    let devs := device_logs.map (fun d => toHVal (pyGetD d "deviceType" .null))
    match firstMaxEntry? (tallyIns devs) with
    | some (dv, n) =>
      ["Most active device type: " ++ dv.render ++ " (" ++ toString n ++ " operations)"]
    | none => []
  (peakPart ++ regexPart ++ devPart).take 5

/-- Lines 140-168 of `analyze_logs.py` (`_generate_recommendations`). -/
def generateRecommendations (logs : List JVal) : Except String (List String) := do
  let objs ← mapE asObj logs
  let error_logs := objs.filter levelIsErrCrit
  let part1 := if logs.isEmpty then ([] : List String)
    else if 10 * error_logs.length > logs.length then
      ["High error rate detected - investigate system stability"]
    else []
  let perf_logs := objs.filter durPresent
  let part2 ← if perf_logs.isEmpty then .ok ([] : List String) else do
    let durs ← mapE (fun d => asNum (pyGetD d "duration" (.num 0))) perf_logs
    let avg := durs.sum / (durs.length : Q)
    .ok (if avg > 5000 then ["Average response time is high - optimize slow operations"] else [])
  let device_errors := error_logs.filter devTruthy
  let part3 ← if device_errors.isEmpty then .ok ([] : List String) else do
    let devs ← mapE (fun d => hashableE (pyGetD d "deviceType" .null)) device_errors
    .ok ((mostCommon2 (tallyIns devs)).map (fun p =>
      "Check " ++ p.1.render ++ " device - " ++ toString p.2 ++ " errors detected"))
  let part4 := if (objs.filter (categoryIs · "security")).isEmpty then ([] : List String)
    else ["Security events detected - review access logs"]
  .ok ((part1 ++ part2 ++ part3 ++ part4).take 5)

/-- Value of the recommendation computation on well-formed batches. -/
def recommendationsOf (logs : List JVal) : List String :=
  let objs := logs.map toObjD
  let error_logs := objs.filter levelIsErrCrit
  let part1 := if logs.isEmpty then ([] : List String)
    else if 10 * error_logs.length > logs.length then
      ["High error rate detected - investigate system stability"]
    else []
  let perf_logs := objs.filter durPresent
  let part2 := if perf_logs.isEmpty then ([] : List String) else
    let durs := perf_logs.map (fun d => numOfJ (pyGetD d "duration" (.num 0)))
    let avg := durs.sum / (durs.length : Q)
    if avg > 5000 then ["Average response time is high - optimize slow operations"] else []
  let device_errors := error_logs.filter devTruthy
  let part3 := if device_errors.isEmpty then ([] : List String) else
    let devs := device_errors.map (fun d => toHVal (pyGetD d "deviceType" .null))
    (mostCommon2 (tallyIns devs)).map (fun p =>
      "Check " ++ p.1.render ++ " device - " ++ toString p.2 ++ " errors detected")
  let part4 := if (objs.filter (categoryIs · "security")).isEmpty then ([] : List String)
    else ["Security events detected - review access logs"]
  (part1 ++ part2 ++ part3 ++ part4).take 5

/-- Parsed datetime of an error or critical record with a parseable
timestamp (lines 174-181; the level test is outside the `try/except`,
the parse inside it). -/
def errTimeOf (d : PyDict) : Option PyDT :=
  if levelIsErrCrit d then
    match pyGetD d "timestamp" (.str "") with
    | .str s => parseTS (replaceChar s 'Z' "+00:00")
    | _ => none
  else none

/-- The `error_times` list of `_detect_anomalies` (lines 174-181). -/
def errDTs (logs : List JVal) : List PyDT := (logs.map toObjD).filterMap errTimeOf

/-- Number of adjacent key pairs whose gap is strictly under ten seconds,
i.e. 10 000 000 microseconds (lines 184-187). -/
def countAdjClose : List Int → Nat
  | [] => 0
  | [_] => 0
  | a :: b :: rest => (if b - a < 10000000 then 1 else 0) + countAdjClose (b :: rest)

/-- Rapid-error pair count of a batch: qualifying adjacent gaps of the
ascending-sorted keys of the parseable error timestamps (meaningful when
that datetime list is not mixed, so that the sort does not raise). -/
def rapidCount (logs : List JVal) : Nat :=
  countAdjClose (sortInt ((errDTs logs).map dtKey))

/-- Lines 170-207 of `analyze_logs.py` (`_detect_anomalies`).  The
`error_times.sort()` at line 183 is outside any `try/except` and raises
on a mixed aware/naive list. -/
def detectAnomalies (logs : List JVal) : Except String (List String) := do
  let objs ← mapE asObj logs
  let error_times := objs.filterMap errTimeOf
  let keys ← sortedKeysE error_times
  let rapid := countAdjClose keys
  let part1 := if 3 < rapid then ["Detected " ++ toString rapid ++ " rapid error sequences"]
    else []
  let user_actions := objs.filter (categoryIs · "user_interaction")
  let part2 := if 100 < user_actions.length then ["Unusually high user activity detected"]
    else []
  let perf_logs := objs.filter durPresent
  let part3 ← if perf_logs.isEmpty then .ok ([] : List String) else do
    let durs ← mapE (fun d => asNum (pyGetD d "duration" (.num 0))) perf_logs
    if durs.isEmpty then .ok ([] : List String)
    else
      let avg := durs.sum / (durs.length : Q)
      let outliers := durs.filter (fun x => x > avg * 3)
      .ok (if outliers.isEmpty then ([] : List String)
        else ["Detected " ++ toString outliers.length ++ " performance outliers"])
  .ok (part1 ++ part2 ++ part3)

/-- Rapid-error-burst entry of the anomaly list. -/
def rapidPart (logs : List JVal) : List String :=
  if 3 < rapidCount logs then
    ["Detected " ++ toString (rapidCount logs) ++ " rapid error sequences"]
  else []

/-- User-volume entry of the anomaly list. -/
def userActivityPart (logs : List JVal) : List String :=
  if 100 < ((logs.map toObjD).filter (categoryIs · "user_interaction")).length then
    ["Unusually high user activity detected"]
  else []

/-- Duration-outlier entry of the anomaly list. -/
def perfOutlierPart (logs : List JVal) : List String :=
  let perf_logs := (logs.map toObjD).filter durPresent
  if perf_logs.isEmpty then ([] : List String) else
    let durs := perf_logs.map (fun d => numOfJ (pyGetD d "duration" (.num 0)))
    if durs.isEmpty then ([] : List String)
    else
      let avg := durs.sum / (durs.length : Q)
      let outliers := durs.filter (fun x => x > avg * 3)
      if outliers.isEmpty then ([] : List String)
      else ["Detected " ++ toString outliers.length ++ " performance outliers"]

/-- Value of the anomaly computation on well-formed batches. -/
def anomaliesOf (logs : List JVal) : List String :=
  rapidPart logs ++ userActivityPart logs ++ perfOutlierPart logs

/-- Reliability insight string (lines 225-231) over the exact rate. -/
def reliabilityMsg (succ total : Nat) : String :=
  let rate : Q := (succ : Q) / (total : Q) * 100
  if rate > 95 then "Excellent system reliability: " ++ fmt1 rate ++ "% success rate"
  else if rate > 85 then "Good system reliability: " ++ fmt1 rate ++ "% success rate"
  else "System reliability concerns: " ++ fmt1 rate ++ "% success rate"

/-- Lines 241-255 of `analyze_logs.py` (`_calculate_time_span`): elapsed
hours between the earliest and latest parseable timestamp (microsecond
span divided by 3 600 000 000), `0` when fewer than two parse.  The
`timestamps.sort()` at line 253 is outside any `try/except` and raises on
a mixed aware/naive list (the length guard precedes the sort, so fewer
than two timestamps never raise). -/
def calculateTimeSpanE (logs : List JVal) : Except String Q :=
  let dts := allDTs logs
  if dts.length < 2 then .ok 0
  else do
    let keys ← sortedKeysE dts
    .ok (((keys.getLastD 0 - keys.headD 0 : Int) : Q) / 3600000000)

/-- Value of the time-span computation when the sort does not raise. -/
def timeSpanQ (logs : List JVal) : Q :=
  let dts := allDTs logs
  if dts.length < 2 then 0
  else
    let keys := sortInt (dts.map dtKey)
    ((keys.getLastD 0 - keys.headD 0 : Int) : Q) / 3600000000

/-- Lines 209-239 of `analyze_logs.py` (`_extract_insights`).  Note the
time-span insight is guarded by the truthiness of the span, so a zero
span (all parseable timestamps equal) emits nothing. -/
def extractInsights (logs : List JVal) : Except String (List String) := do
  let objs ← mapE asObj logs
  let user_logs := objs.filter (categoryIs · "user_interaction")
  let part1 ← if user_logs.isEmpty then .ok ([] : List String) else do
    let acts ← mapE (fun d => hashableE (pyGetD d "action" (.str ""))) user_logs
    match firstMaxEntry? (tallyIns acts) with
    | some (a, n) =>
      .ok ["Most frequent user action: " ++ a.render ++ " (" ++ toString n ++ " times)"]
    | none => .ok ([] : List String)
  let total_operations := (objs.filter successPresent).length
  let successful_operations := (objs.filter successTrue).length
  let part2 := if 0 < total_operations then
      [reliabilityMsg successful_operations total_operations]
    else []
  let part3 ← if logs.isEmpty then .ok ([] : List String)
    else do
      let h ← calculateTimeSpanE logs
      .ok (if h = 0 then []
        else ["Analysis covers " ++ fmt1 h ++ " hours of system activity"])
  .ok (part1 ++ part2 ++ part3)

/-- Top-user-action entry of the insight list. -/
def userActionPart (logs : List JVal) : List String :=
  let user_logs := (logs.map toObjD).filter (categoryIs · "user_interaction")
  if user_logs.isEmpty then ([] : List String) else
    let acts := user_logs.map (fun d => toHVal (pyGetD d "action" (.str "")))
    match firstMaxEntry? (tallyIns acts) with
    | some (a, n) =>
      ["Most frequent user action: " ++ a.render ++ " (" ++ toString n ++ " times)"]
    | none => []

/-- Denominator of the reliability rate: records whose `success` field is
present and not null (the Python `is not None` test, which keeps
non-boolean values). -/
def totalOperations (logs : List JVal) : Nat :=
  ((logs.map toObjD).filter successPresent).length

/-- Numerator of the reliability rate: records whose `success` field is
exactly the boolean true. -/
def successfulOperations (logs : List JVal) : Nat :=
  ((logs.map toObjD).filter successTrue).length

/-- Reliability entry of the insight list. -/
def reliabilityPart (logs : List JVal) : List String :=
  if 0 < totalOperations logs then
    [reliabilityMsg (successfulOperations logs) (totalOperations logs)]
  else []

/-- Time-span entry of the insight list (absent when the span is zero). -/
def timeSpanPart (logs : List JVal) : List String :=
  if logs.isEmpty then ([] : List String)
  else
    let h := timeSpanQ logs
    if h = 0 then [] else ["Analysis covers " ++ fmt1 h ++ " hours of system activity"]

/-- `true` when the parseable timestamps of the batch do not mix aware
and naive datetimes: then neither sort of the analysis raises (the error
timestamps are a subset of all parseable timestamps). -/
def tsUniform (logs : List JVal) : Bool := !kindMixed (allDTs logs)

/-- Value of the insight computation on well-formed batches. -/
def insightsOf (logs : List JVal) : List String :=
  userActionPart logs ++ reliabilityPart logs ++ timeSpanPart logs

/-- Lines 257-267 of `analyze_logs.py` (`_calculate_confidence`): step
function of the record count alone. -/
def calculateConfidence (logs : List JVal) : Q :=
  if logs.length = 0 then 0
  else if logs.length < 10 then 3/10
  else if logs.length < 50 then 3/5
  else if logs.length < 100 then 4/5
  else 19/20

/-- Body of the `try` of `analyze_logs` for a non-empty list (lines
33-41); the dict literal evaluates its values in source order, so the
first raising sub-computation decides the exception. -/
def coreAnalysis (logs : List JVal) : Except String AnalysisResult := do
  let severity ← calculateOverallSeverity logs
  let summary ← generateSummary logs
  let patterns ← identifyPatterns logs
  let recommendations ← generateRecommendations logs
  let anomalies ← detectAnomalies logs
  let insights ← extractInsights logs
  .ok ⟨severity, summary, patterns, recommendations, anomalies, insights,
    calculateConfidence logs⟩

/-- Value of the analysis on well-formed batches. -/
def analysisOf (logs : List JVal) : AnalysisResult :=
  ⟨severityOf logs, summaryOf logs, patternsOf logs, recommendationsOf logs,
    anomaliesOf logs, insightsOf logs, calculateConfidence logs⟩

/-- Lines 56-65 of `analyze_logs.py` (`_empty_analysis`). -/
def emptyAnalysis : AnalysisResult :=
  ⟨"low", "No logs available for analysis", [],
    ["Enable logging for better system monitoring"], [],
    ["System appears inactive or logging disabled"], 0⟩

/-- Lines 45-54 of `analyze_logs.py`: catch-all fallback of
`analyze_logs`. -/
def analysisFallback (e : String) : AnalysisResult :=
  ⟨"medium", "Analysis failed: " ++ e, [], ["Review log analysis system"], [], [], 1/10⟩

/-- Lines 280-290 of `analyze_logs.py`: catch-all fallback of the `main`
wrapper (distinct recommendation wording). -/
def mainFallback (e : String) : AnalysisResult :=
  ⟨"medium", "Analysis failed: " ++ e, [], ["Check log analysis system"], [], [], 1/10⟩

/-- Lines 27-54 of `analyze_logs.py` (`analyze_logs`): missing `logs` key
defaults to `[]`; a falsy value (absent, empty list, and likewise `0`,
`""`, `{}`, `null`, `false`) takes the empty-analysis branch; a truthy
non-list raises while being iterated (strings and dicts yield non-dict
elements whose `.get` raises, numbers are not iterable) and is caught by
the same `except`. -/
def analyzeLogsStep (logsVal : JVal) : AnalysisResult :=
  if !truthy logsVal then emptyAnalysis
  else
    match logsVal with
    | .arr logs =>
      match coreAnalysis logs with
      | .ok a => a
      | .error e => analysisFallback e
    | .str _ => analysisFallback "AttributeError: object has no attribute get"
    | .obj _ => analysisFallback "AttributeError: object has no attribute get"
    | _ => analysisFallback "TypeError: object is not iterable"

/-- Body of `analyze_logs` on a parsed dict (see `analyzeLogsStep` for
the handling of the extracted value). -/
def analyzeLogs (logs_data : PyDict) : AnalysisResult :=
  analyzeLogsStep (pyGetD logs_data "logs" (.arr []))

/-- `analyze_logs` applied to an arbitrary parsed JSON document: a
non-dict document raises at `logs_data.get` inside the `try` and is
caught by the same fallback. -/
def analyzeLogsVal : JVal → AnalysisResult
  | .obj d => analyzeLogs d
  | _ => analysisFallback "AttributeError: object has no attribute get"

/-- Lines 269-290 of `analyze_logs.py` (`main`): the stdin read and JSON
parse are abstracted into the `Except` argument; a parse failure takes
the outer fallback with the `Check log analysis system` wording. -/
def mainWrapper (input : Except String JVal) : AnalysisResult :=
  match input with
  | .ok v => analyzeLogsVal v
  | .error e => mainFallback e

/-- Input document with the given logs list. -/
def logsDoc (logs : List JVal) : PyDict := [("logs", .arr logs)]

/-! ### Well-formed batches

A batch whose records are dicts with string `level`/`message`, numeric or
null `duration` and hashable `deviceType`/`action` drives the analyzer
through no raising operation; this is the typed `LogRecord` shape of the
spec (which is stricter still). -/

/-- String test. -/
def isStrB : JVal → Bool
  | .str _ => true
  | _ => false

/-- Null-or-number test. -/
def isNullOrNum : JVal → Bool
  | .null => true
  | .num _ => true
  | _ => false

/-- Hashable test. -/
def isHashB : JVal → Bool
  | .arr _ => false
  | .obj _ => false
  | _ => true

/-- Field constraint holding also when the field is absent. -/
def optField (d : PyDict) (k : String) (p : JVal → Bool) : Bool :=
  match pyGet d k with
  | some v => p v
  | none => true

/-- Well-formed record fields, on the underlying dict. -/
def wfDict (d : PyDict) : Bool :=
  optField d "level" isStrB && optField d "message" isStrB
    && optField d "duration" isNullOrNum && optField d "deviceType" isHashB
    && optField d "action" isHashB

/-- Well-formed log record. -/
def wfLog : JVal → Bool
  | .obj d => wfDict d
  | _ => false

/-- Well-formed batch. -/
def wfBatch (logs : List JVal) : Bool := logs.all wfLog

/-! ### Characterization of the insertion-ordered tally -/

section TallyLemmas

variable {α : Type _} [DecidableEq α]

theorem mem_firsts {a : α} : ∀ {l : List α}, a ∈ firsts l ↔ a ∈ l := by
  intro l
  induction l with
  | nil => simp [firsts]
  | cons x xs ih =>
    simp only [firsts, List.mem_cons, List.mem_filter, ih]
    by_cases hax : a = x <;> simp [hax]

theorem nodup_firsts : ∀ l : List α, (firsts l).Nodup := by
  intro l
  induction l with
  | nil => simp [firsts]
  | cons x xs ih =>
    refine List.Nodup.cons ?_ (ih.filter _)
    intro hx
    have := (List.mem_filter.mp hx).2
    simp at this

theorem firsts_concat (l : List α) (x : α) :
    firsts (l ++ [x]) = if x ∈ l then firsts l else firsts l ++ [x] := by
  induction l with
  | nil => simp [firsts]
  | cons y ys ih =>
    by_cases hx : x ∈ ys
    · simp [firsts, ih, hx, List.mem_cons]
    · by_cases hxy : x = y
      · subst hxy
        simp [firsts, ih, hx, List.filter_append]
      · have hmem : x ∈ y :: ys ↔ False := by simp [hxy, hx]
        simp [firsts, ih, hx, hmem, List.filter_append, hxy, Ne.symm hxy]

theorem tallyIns_concat (l : List α) (x : α) :
    tallyIns (l ++ [x]) = bump x (tallyIns l) := by
  unfold tallyIns
  rw [List.foldl_append]
  rfl

theorem bump_map_not_mem (c : α → Nat) {x : α} :
    ∀ {ks : List α}, x ∉ ks →
      bump x (ks.map (fun a => (a, c a))) = ks.map (fun a => (a, c a)) ++ [(x, 1)] := by
  intro ks
  induction ks with
  | nil => intro _; rfl
  | cons k ks ih =>
    intro h
    have hk : k ≠ x := fun hkx => h (by simp [hkx])
    have hx : x ∉ ks := fun hm => h (by simp [hm])
    simp [bump, hk, ih hx]

theorem bump_map_mem (c : α → Nat) {x : α} :
    ∀ {ks : List α}, ks.Nodup → x ∈ ks →
      bump x (ks.map (fun a => (a, c a)))
        = ks.map (fun a => (a, if a = x then c a + 1 else c a)) := by
  intro ks
  induction ks with
  | nil => intro _ h; simp at h
  | cons k ks ih =>
    intro hnd hmem
    by_cases hk : k = x
    · subst hk
      have hx : k ∉ ks := (List.nodup_cons.mp hnd).1
      have : ∀ a ∈ ks, (a, c a) = (a, if a = k then c a + 1 else c a) := by
        intro a ha
        have : a ≠ k := fun h => hx (h ▸ ha)
        simp [this]
      simp only [List.map_cons, bump, if_pos rfl]
      rw [List.map_congr_left (fun a ha => (this a ha).symm)]
      simp
    · have hx : x ∈ ks := by
        rcases List.mem_cons.mp hmem with h | h
        · exact absurd h.symm hk
        · exact h
      simp [bump, hk, ih (List.nodup_cons.mp hnd).2 hx]

theorem tally_spec (l : List α) :
    tallyIns l = (firsts l).map (fun a => (a, l.count a)) := by
  induction l using List.reverseRecOn with
  | nil => rfl
  | append_singleton l x ih =>
    rw [tallyIns_concat, ih, firsts_concat]
    by_cases hx : x ∈ l
    · rw [if_pos hx]
      rw [bump_map_mem (fun a => l.count a) (nodup_firsts l) (mem_firsts.mpr hx)]
      refine List.map_congr_left ?_
      intro a _
      by_cases hax : a = x
      · subst hax
        simp [List.count_append]
      · simp [List.count_append, hax]
    · rw [if_neg hx]
      rw [bump_map_not_mem (fun a => l.count a) (fun h => hx (mem_firsts.mp h))]
      have h0 : l.count x = 0 := List.count_eq_zero.mpr hx
      have hmap : ∀ a ∈ firsts l, (a, l.count a) = (a, (l ++ [x]).count a) := by
        intro a ha
        have hal : a ∈ l := mem_firsts.mp ha
        have hax : a ≠ x := fun h => hx (h ▸ hal)
        simp [List.count_append, hax]
      rw [List.map_congr_left hmap]
      simp [List.count_append, h0]

theorem tally_keys (l : List α) : (tallyIns l).map Prod.fst = firsts l := by
  have hid : ∀ m : List α, m.map (Prod.fst ∘ fun a => (a, l.count a)) = m := by
    intro m
    induction m with
    | nil => rfl
    | cons b bs ih => simp only [List.map_cons, ih, Function.comp]
  rw [tally_spec, List.map_map, hid]

theorem firstMaxAux_spec :
    ∀ (l : List (α × Nat)) (bk : α) (bv : Nat),
      (firstMaxAux bk bv l = bk ∧ ∀ p ∈ l, p.2 ≤ bv)
      ∨ (∃ pre n post, l = pre ++ (firstMaxAux bk bv l, n) :: post ∧ bv < n
          ∧ (∀ p ∈ pre, p.2 < n) ∧ (∀ p ∈ post, p.2 ≤ n)) := by
  intro l
  induction l with
  | nil => intro bk bv; exact Or.inl ⟨rfl, by simp⟩
  | cons hd tl ih =>
    intro bk bv
    obtain ⟨a, m⟩ := hd
    by_cases hm : bv < m
    · rcases ih a m with ⟨heq, hall⟩ | ⟨pre, n, post, heq, hlt, hpre, hpost⟩
      · refine Or.inr ⟨[], m, tl, ?_, hm, by simp, ?_⟩
        · simp [firstMaxAux, hm, heq]
        · intro p hp; exact hall p hp
      · refine Or.inr ⟨(a, m) :: pre, n, post, ?_, lt_trans hm hlt, ?_, hpost⟩
        · simp [firstMaxAux, hm]; exact heq
        · intro p hp
          rcases List.mem_cons.mp hp with h | h
          · subst h; exact hlt
          · exact hpre p h
    · rcases ih bk bv with ⟨heq, hall⟩ | ⟨pre, n, post, heq, hlt, hpre, hpost⟩
      · refine Or.inl ⟨by simp [firstMaxAux, hm, heq], ?_⟩
        intro p hp
        rcases List.mem_cons.mp hp with h | h
        · subst h; exact Nat.le_of_not_lt hm
        · exact hall p h
      · refine Or.inr ⟨(a, m) :: pre, n, post, ?_, hlt, ?_, hpost⟩
        · simp [firstMaxAux, hm]; exact heq
        · intro p hp
          rcases List.mem_cons.mp hp with h | h
          · subst h; exact lt_of_le_of_lt (Nat.le_of_not_lt hm) hlt
          · exact hpre p h

theorem firstMax?_spec {l : List (α × Nat)} (h : l ≠ []) :
    ∃ k pre n post, firstMax? l = some k ∧ l = pre ++ (k, n) :: post
      ∧ (∀ p ∈ pre, p.2 < n) ∧ (∀ p ∈ post, p.2 ≤ n) := by
  match l, h with
  | (a, m) :: tl, _ =>
    rcases firstMaxAux_spec tl a m with ⟨heq, hall⟩ | ⟨pre, n, post, heq, hlt, hpre, hpost⟩
    · exact ⟨a, [], m, tl, by simp [firstMax?, heq], by simp, by simp, hall⟩
    · refine ⟨firstMaxAux a m tl, (a, m) :: pre, n, post, by simp [firstMax?], ?_, ?_, hpost⟩
      · conv_lhs => rw [heq]
        simp
      · intro p hp
        rcases List.mem_cons.mp hp with h | h
        · subst h; exact hlt
        · exact hpre p h

theorem lookup_keysNodup {k : α} {n : Nat} :
    ∀ {pre post : List (α × Nat)},
      ((pre ++ (k, n) :: post).map Prod.fst).Nodup →
      (pre ++ (k, n) :: post).lookup k = some n := by
  intro pre
  induction pre with
  | nil => intro post _; simp [List.lookup]
  | cons hd tl ih =>
    intro post hnd
    obtain ⟨a, m⟩ := hd
    rw [List.cons_append, List.map_cons, List.nodup_cons] at hnd
    obtain ⟨ha, htl⟩ := hnd
    have hka : (k == a) = false := by
      refine beq_eq_false_iff_ne.mpr ?_
      intro hk
      subst hk
      exact ha (by simp)
    rw [List.cons_append]
    simp only [List.lookup, hka]
    exact ih htl

/-- Keys reported by `firstMax?` belong to the list. -/
theorem firstMax?_mem {l : List (α × Nat)} {k : α} (h : firstMax? l = some k) :
    k ∈ l.map Prod.fst := by
  cases l with
  | nil => simp [firstMax?] at h
  | cons hd tl =>
    obtain ⟨k2, pre, n, post, h1, h2, _, _⟩ := firstMax?_spec (l := hd :: tl) (by simp)
    rw [h1] at h
    injection h with h
    subst h
    rw [h2]
    simp

end TallyLemmas

/-! ### The analyzer on well-formed batches -/

theorem wfDict_fields {d : PyDict} (h : wfDict d = true) :
    optField d "level" isStrB = true ∧ optField d "message" isStrB = true
    ∧ optField d "duration" isNullOrNum = true ∧ optField d "deviceType" isHashB = true
    ∧ optField d "action" isHashB = true := by
  simp only [wfDict, Bool.and_eq_true] at h
  exact ⟨h.1.1.1.1, h.1.1.1.2, h.1.1.2, h.1.2, h.2⟩

theorem optField_cases {d : PyDict} {k : String} {p : JVal → Bool}
    (h : optField d k p = true) :
    pyGet d k = none ∨ ∃ v, pyGet d k = some v ∧ p v = true := by
  unfold optField at h
  cases hv : pyGet d k with
  | none => exact Or.inl rfl
  | some v => rw [hv] at h; exact Or.inr ⟨v, rfl, h⟩

theorem wfBatch_mem {logs : List JVal} (h : wfBatch logs = true) :
    ∀ x ∈ logs, wfLog x = true :=
  fun x hx => List.all_eq_true.mp h x hx

theorem wfLog_obj {x : JVal} (h : wfLog x = true) :
    ∃ d, x = .obj d ∧ wfDict d = true := by
  cases x <;> simp [wfLog] at h ⊢
  exact h

theorem mem_objs_wf {logs : List JVal} {d : PyDict} (h : wfBatch logs = true)
    (hd : d ∈ logs.map toObjD) : wfDict d = true := by
  obtain ⟨x, hx, hxd⟩ := List.mem_map.mp hd
  obtain ⟨d2, hd2, hwf⟩ := wfLog_obj (wfBatch_mem h x hx)
  subst hd2
  simp [toObjD] at hxd
  subst hxd
  exact hwf

theorem objs_ok {logs : List JVal} (h : wfBatch logs = true) :
    mapE asObj logs = .ok (logs.map toObjD) := by
  refine mapE_congr_ok _ _ _ ?_
  intro x hx
  obtain ⟨d, hd, _⟩ := wfLog_obj (wfBatch_mem h x hx)
  subst hd
  rfl

theorem hashableE_ok_of {v : JVal} (h : isHashB v = true) :
    hashableE v = .ok (toHVal v) := by
  cases v <;> simp [isHashB] at h ⊢ <;> rfl

theorem levelLowerE_ok {x : JVal} (h : wfLog x = true) :
    levelLowerE x = .ok (levelLower x) := by
  obtain ⟨d, hd, hwf⟩ := wfLog_obj h
  subst hd
  have hl := (wfDict_fields hwf).1
  show asStrLower (pyGetD d "level" (.str "")) = .ok (levelLower (.obj d))
  unfold levelLower toObjD
  rcases optField_cases hl with hnone | ⟨v, hv, hp⟩
  · simp [pyGetD, hnone, asStrLower]
  · cases v <;> simp [isStrB] at hp ⊢ <;> simp [pyGetD, hv, asStrLower]

theorem severity_ok {logs : List JVal} (h : wfBatch logs = true) :
    calculateOverallSeverity logs = .ok (severityOf logs) := by
  have hall : ∀ x ∈ logs, levelLowerE x = .ok (levelLower x) :=
    fun x hx => levelLowerE_ok (wfBatch_mem h x hx)
  unfold calculateOverallSeverity severityOf
  rw [mapE_congr_ok _ _ _ hall]
  by_cases h0 : logs.length = 0 <;> simp [h0]

theorem message_hashable_ok {logs : List JVal} {d : PyDict} (h : wfBatch logs = true)
    (hd : d ∈ logs.map toObjD) :
    hashableE (pyGetD d "message" (.str "")) = .ok (toHVal (pyGetD d "message" (.str "")))
      ∧ ∃ s, toHVal (pyGetD d "message" (.str "")) = .str s := by
  have hwf := mem_objs_wf h hd
  have hm := (wfDict_fields hwf).2.1
  rcases optField_cases hm with hnone | ⟨v, hv, hp⟩
  · simp [pyGetD, hnone, hashableE, toHVal]
  · cases v <;> simp [isStrB] at hp ⊢ <;> simp [pyGetD, hv, hashableE, toHVal]

theorem firstMaxEntry?_key_mem [DecidableEq α] {l : List (α × Nat)} {k : α} {n : Nat}
    (h : firstMaxEntry? l = some (k, n)) : k ∈ l.map Prod.fst := by
  unfold firstMaxEntry? at h
  cases hm : firstMax? l with
  | none => rw [hm] at h; simp at h
  | some k2 =>
    rw [hm] at h
    injection h with h
    have : k2 = k := congrArg Prod.fst h
    subst this
    exact firstMax?_mem hm

theorem summary_ok {logs : List JVal} (h : wfBatch logs = true) :
    generateSummary logs = .ok (summaryOf logs) := by
  unfold generateSummary summaryOf
  rw [objs_ok h]
  simp only [bind_ok]
  by_cases he : (List.filter levelIsErrCrit (logs.map toObjD)).isEmpty
  · simp only [he, if_pos, ite_true]
  · simp only [he, ite_false, if_neg, Bool.not_eq_true]
    have hmsg : ∀ d ∈ List.filter levelIsErrCrit (logs.map toObjD),
        hashableE (pyGetD d "message" (.str ""))
          = .ok (toHVal (pyGetD d "message" (.str ""))) := by
      intro d hdm
      exact (message_hashable_ok h (List.mem_of_mem_filter hdm)).1
    rw [mapE_congr_ok _ _ _ hmsg]
    simp only [bind_ok]
    cases hfm : firstMaxEntry?
        (tallyIns ((List.filter levelIsErrCrit (logs.map toObjD)).map
          (fun d => toHVal (pyGetD d "message" (.str ""))))) with
    | none => rfl
    | some e =>
      obtain ⟨m, n⟩ := e
      have hkmem := firstMaxEntry?_key_mem hfm
      rw [tally_keys] at hkmem
      have hmem := mem_firsts.mp hkmem
      obtain ⟨d, hdmem, hdm⟩ := List.mem_map.mp hmem
      obtain ⟨s, hs⟩ := (message_hashable_ok h (List.mem_of_mem_filter hdmem)).2
      rw [hdm] at hs
      subst hs
      simp [sliceMsg, strOfH]

theorem detectErrPatterns_ok {msgs : List JVal} (hstr : ∀ m ∈ msgs, ∃ s, m = .str s) :
    ∀ pats : List (String × String), (∀ p ∈ pats, (compile p.2).isOk = true) →
      detectErrPatterns msgs pats = .ok (detectErrPatternsT msgs pats) := by
  intro pats
  induction pats with
  | nil => intro _; rfl
  | cons p rest ih =>
    intro hok
    obtain ⟨name, rgx⟩ := p
    have hany : anyE (fun m => do
        let s ← asStr m
        searchStrE rgx s) msgs = .ok (msgs.any (fun m => searchStrTotal rgx (strOfJ m))) := by
      refine anyE_congr_ok _ _ _ ?_
      intro m hm
      obtain ⟨s, hs⟩ := hstr m hm
      subst hs
      show (do
        let s2 ← asStr (.str s)
        searchStrE rgx s2) = _
      simp only [asStr, bind_ok]
      exact searchStrE_ok rgx s (hok (name, rgx) (by simp))
    unfold detectErrPatterns
    rw [hany]
    simp only [bind_ok]
    rw [ih (fun q hq => hok q (by simp [hq]))]
    simp only [bind_ok]
    rfl

theorem error_messages_str {logs : List JVal} (h : wfBatch logs = true) :
    ∀ m ∈ ((logs.map toObjD).filter levelIsErrCrit).map
        (fun d => pyGetD d "message" (.str "")), ∃ s, m = .str s := by
  intro m hm
  obtain ⟨d, hdm, hdm2⟩ := List.mem_map.mp hm
  have hwf := mem_objs_wf h (List.mem_of_mem_filter hdm)
  have hmsg := (wfDict_fields hwf).2.1
  rcases optField_cases hmsg with hnone | ⟨v, hv, hp⟩
  · exact ⟨"", by rw [← hdm2]; simp [pyGetD, hnone]⟩
  · cases v with
    | str s =>
      refine ⟨s, ?_⟩
      rw [← hdm2]
      simp [pyGetD, hv]
    | null => simp [isStrB] at hp
    | bool b => simp [isStrB] at hp
    | num q => simp [isStrB] at hp
    | arr l => simp [isStrB] at hp
    | obj o => simp [isStrB] at hp

theorem compile_error_patterns_ok :
    ∀ p ∈ error_patterns, (compile p.2).isOk = true := by decide

theorem device_hashable_ok {logs : List JVal} {d : PyDict} (h : wfBatch logs = true)
    (hd : d ∈ logs.map toObjD) :
    hashableE (pyGetD d "deviceType" .null) = .ok (toHVal (pyGetD d "deviceType" .null)) := by
  have hwf := mem_objs_wf h hd
  have hf := (wfDict_fields hwf).2.2.2.1
  rcases optField_cases hf with hnone | ⟨v, hv, hp⟩
  · simp [pyGetD, hnone, hashableE, toHVal]
  · rw [pyGetD, hv]
    exact hashableE_ok_of hp

theorem patterns_ok {logs : List JVal} (h : wfBatch logs = true) :
    identifyPatterns logs = .ok (patternsOf logs) := by
  unfold identifyPatterns patternsOf
  rw [objs_ok h]
  simp only [bind_ok]
  rw [detectErrPatterns_ok (error_messages_str h) error_patterns compile_error_patterns_ok]
  simp only [bind_ok]
  by_cases hdev : (List.filter devTruthy (logs.map toObjD)).isEmpty
  · simp only [hdev, ite_true, if_pos, bind_ok]
  · simp only [hdev, ite_false, if_neg, Bool.not_eq_true]
    have hdevs : ∀ d ∈ List.filter devTruthy (logs.map toObjD),
        hashableE (pyGetD d "deviceType" .null)
          = .ok (toHVal (pyGetD d "deviceType" .null)) :=
      fun d hd => device_hashable_ok h (List.mem_of_mem_filter hd)
    rw [mapE_congr_ok _ _ _ hdevs]
    simp only [bind_ok]
    cases firstMaxEntry?
        (tallyIns ((List.filter devTruthy (logs.map toObjD)).map
          (fun d => toHVal (pyGetD d "deviceType" .null)))) with
    | none => rfl
    | some e => rfl

theorem dur_num_ok {logs : List JVal} {d : PyDict} (h : wfBatch logs = true)
    (hd : d ∈ logs.map toObjD) (hdp : durPresent d = true) :
    asNum (pyGetD d "duration" (.num 0)) = .ok (numOfJ (pyGetD d "duration" (.num 0))) := by
  have hwf := mem_objs_wf h hd
  have hf := (wfDict_fields hwf).2.2.1
  unfold durPresent at hdp
  rcases optField_cases hf with hnone | ⟨v, hv, hp⟩
  · rw [hnone] at hdp; simp at hdp
  · rw [hv] at hdp
    cases v with
    | null => simp [isNull] at hdp
    | num q => simp [pyGetD, hv, asNum, numOfJ]
    | bool b => simp [isNullOrNum] at hp
    | str s => simp [isNullOrNum] at hp
    | arr l => simp [isNullOrNum] at hp
    | obj o => simp [isNullOrNum] at hp

theorem recommendations_ok {logs : List JVal} (h : wfBatch logs = true) :
    generateRecommendations logs = .ok (recommendationsOf logs) := by
  unfold generateRecommendations recommendationsOf
  rw [objs_ok h]
  simp only [bind_ok]
  have hpart2 : ∀ t : List String, (if hp : (List.filter durPresent (logs.map toObjD)).isEmpty then True else True) := by
    intro t; split <;> trivial
  by_cases hperf : (List.filter durPresent (logs.map toObjD)).isEmpty
  · simp only [hperf, ite_true, if_pos, bind_ok]
    by_cases hde : (List.filter devTruthy
        (List.filter levelIsErrCrit (logs.map toObjD))).isEmpty
    · simp only [hde, ite_true, if_pos, bind_ok]
    · simp only [hde, ite_false, if_neg, Bool.not_eq_true]
      rw [mapE_congr_ok _ _ _ (fun d hd => device_hashable_ok h
        (List.mem_of_mem_filter (List.mem_of_mem_filter hd)))]
      simp only [bind_ok]
  · simp only [hperf, ite_false, if_neg, Bool.not_eq_true]
    rw [mapE_congr_ok _ _ _ (fun d hd => dur_num_ok h
      (List.mem_of_mem_filter hd) (List.of_mem_filter hd))]
    simp only [bind_ok]
    by_cases hde : (List.filter devTruthy
        (List.filter levelIsErrCrit (logs.map toObjD))).isEmpty
    · simp only [hde, ite_true, if_pos, bind_ok]
    · simp only [hde, ite_false, if_neg, Bool.not_eq_true]
      rw [mapE_congr_ok _ _ _ (fun d hd => device_hashable_ok h
        (List.mem_of_mem_filter (List.mem_of_mem_filter hd)))]
      simp only [bind_ok]

theorem sortedKeysE_ok {l : List PyDT} (h : kindMixed l = false) :
    sortedKeysE l = .ok (sortInt (l.map dtKey)) := by
  unfold sortedKeysE
  rw [h]
  rfl

theorem errDTs_subset {logs : List JVal} : ∀ t ∈ errDTs logs, t ∈ allDTs logs := by
  intro t ht
  unfold errDTs at ht
  obtain ⟨d, hd, hdt⟩ := List.mem_filterMap.mp ht
  obtain ⟨v, hv, hvd⟩ := List.mem_map.mp hd
  refine List.mem_filterMap.mpr ⟨v, hv, ?_⟩
  cases v with
  | obj o =>
    have ho : d = o := by rw [← hvd]; rfl
    subst ho
    unfold errTimeOf at hdt
    unfold tsOfLog
    by_cases hc : levelIsErrCrit d
    · rw [if_pos hc] at hdt
      exact hdt
    · rw [if_neg hc] at hdt
      exact absurd hdt (by simp)
  | null =>
    rw [← hvd, show errTimeOf (toObjD JVal.null) = none from rfl] at hdt
    exact absurd hdt (by simp)
  | bool b =>
    rw [← hvd, show errTimeOf (toObjD (JVal.bool b)) = none from rfl] at hdt
    exact absurd hdt (by simp)
  | num q =>
    rw [← hvd, show errTimeOf (toObjD (JVal.num q)) = none from rfl] at hdt
    exact absurd hdt (by simp)
  | str s =>
    rw [← hvd, show errTimeOf (toObjD (JVal.str s)) = none from rfl] at hdt
    exact absurd hdt (by simp)
  | arr l =>
    rw [← hvd, show errTimeOf (toObjD (JVal.arr l)) = none from rfl] at hdt
    exact absurd hdt (by simp)

theorem kindMixed_false_mono {l1 l2 : List PyDT} (hsub : ∀ t ∈ l1, t ∈ l2)
    (h : kindMixed l2 = false) : kindMixed l1 = false := by
  unfold kindMixed at h ⊢
  rw [Bool.and_eq_false_iff] at h ⊢
  rcases h with h | h
  · left
    rw [List.any_eq_false] at h ⊢
    exact fun t ht => h t (hsub t ht)
  · right
    rw [List.any_eq_false] at h ⊢
    exact fun t ht => h t (hsub t ht)

theorem errNoMix {logs : List JVal} (hu : tsUniform logs = true) :
    kindMixed (errDTs logs) = false := by
  unfold tsUniform at hu
  have hA : kindMixed (allDTs logs) = false := by simpa using hu
  exact kindMixed_false_mono errDTs_subset hA

theorem calculateTimeSpanE_ok {logs : List JVal} (hmixA : kindMixed (allDTs logs) = false) :
    calculateTimeSpanE logs = .ok (timeSpanQ logs) := by
  unfold calculateTimeSpanE timeSpanQ
  dsimp only
  by_cases hlen : (allDTs logs).length < 2
  · rw [if_pos hlen, if_pos hlen]
  · rw [if_neg hlen, if_neg hlen, sortedKeysE_ok hmixA]
    rfl

theorem anomalies_ok {logs : List JVal} (h : wfBatch logs = true)
    (hmix : kindMixed (errDTs logs) = false) :
    detectAnomalies logs = .ok (anomaliesOf logs) := by
  have hmix2 : kindMixed (List.filterMap errTimeOf (List.map toObjD logs)) = false := hmix
  unfold detectAnomalies anomaliesOf rapidPart userActivityPart perfOutlierPart rapidCount errDTs
  rw [objs_ok h]
  simp only [bind_ok]
  rw [sortedKeysE_ok hmix2]
  simp only [bind_ok]
  by_cases hperf : (List.filter durPresent (logs.map toObjD)).isEmpty
  · simp only [hperf, ite_true, if_pos, bind_ok]
  · simp only [hperf, ite_false, if_neg, Bool.not_eq_true]
    rw [mapE_congr_ok _ _ _ (fun d hd => dur_num_ok h
      (List.mem_of_mem_filter hd) (List.of_mem_filter hd))]
    simp only [bind_ok]
    by_cases hdur : ((List.filter durPresent (logs.map toObjD)).map
        (fun d => numOfJ (pyGetD d "duration" (.num 0)))).isEmpty
    · simp only [hdur, ite_true, if_pos, bind_ok]
    · simp only [hdur, ite_false, if_neg, Bool.not_eq_true]

theorem action_hashable_ok {logs : List JVal} {d : PyDict} (h : wfBatch logs = true)
    (hd : d ∈ logs.map toObjD) :
    hashableE (pyGetD d "action" (.str "")) = .ok (toHVal (pyGetD d "action" (.str ""))) := by
  have hwf := mem_objs_wf h hd
  have hf := (wfDict_fields hwf).2.2.2.2
  rcases optField_cases hf with hnone | ⟨v, hv, hp⟩
  · simp [pyGetD, hnone, hashableE, toHVal]
  · rw [pyGetD, hv]
    exact hashableE_ok_of hp

theorem insights_ok {logs : List JVal} (h : wfBatch logs = true)
    (hu : tsUniform logs = true) :
    extractInsights logs = .ok (insightsOf logs) := by
  have hmixA : kindMixed (allDTs logs) = false := by
    unfold tsUniform at hu
    simpa using hu
  unfold extractInsights insightsOf userActionPart reliabilityPart timeSpanPart
    totalOperations successfulOperations
  rw [objs_ok h]
  simp only [bind_ok]
  rw [calculateTimeSpanE_ok hmixA]
  simp only [bind_ok]
  by_cases hemp : logs.isEmpty
  · simp only [hemp, ite_true, if_pos, bind_ok]
    by_cases huser : (List.filter (categoryIs · "user_interaction") (logs.map toObjD)).isEmpty
    · simp only [huser, ite_true, if_pos, bind_ok]
    · simp only [huser, ite_false, if_neg, Bool.not_eq_true]
      rw [mapE_congr_ok _ _ _ (fun d hd => action_hashable_ok h (List.mem_of_mem_filter hd))]
      simp only [bind_ok]
      cases firstMaxEntry?
          (tallyIns ((List.filter (categoryIs · "user_interaction") (logs.map toObjD)).map
            (fun d => toHVal (pyGetD d "action" (.str ""))))) with
      | none => rfl
      | some e => rfl
  · simp only [hemp, ite_false, if_neg, Bool.not_eq_true, bind_ok]
    by_cases huser : (List.filter (categoryIs · "user_interaction") (logs.map toObjD)).isEmpty
    · simp only [huser, ite_true, if_pos, bind_ok]
    · simp only [huser, ite_false, if_neg, Bool.not_eq_true]
      rw [mapE_congr_ok _ _ _ (fun d hd => action_hashable_ok h (List.mem_of_mem_filter hd))]
      simp only [bind_ok]
      cases firstMaxEntry?
          (tallyIns ((List.filter (categoryIs · "user_interaction") (logs.map toObjD)).map
            (fun d => toHVal (pyGetD d "action" (.str ""))))) with
      | none => rfl
      | some e => rfl

theorem core_ok {logs : List JVal} (h : wfBatch logs = true)
    (hu : tsUniform logs = true) :
    coreAnalysis logs = .ok (analysisOf logs) := by
  unfold coreAnalysis analysisOf
  rw [severity_ok h, summary_ok h, patterns_ok h, recommendations_ok h,
    anomalies_ok h (errNoMix hu), insights_ok h hu]
  rfl

theorem pyGet_logsDoc (logs : List JVal) : pyGetD (logsDoc logs) "logs" (.arr []) = .arr logs := by
  simp [logsDoc, pyGetD, pyGet]

theorem analyzeLogs_wf {logs : List JVal} (h : wfBatch logs = true)
    (hu : tsUniform logs = true) :
    analyzeLogs (logsDoc logs) =
      if logs.isEmpty then emptyAnalysis else analysisOf logs := by
  unfold analyzeLogs analyzeLogsStep
  rw [pyGet_logsDoc]
  by_cases hemp : logs.isEmpty
  · simp [truthy, hemp]
  · simp only [truthy, hemp, Bool.not_false, ite_false, if_neg]
    rw [core_ok h hu]
    simp [hemp]

/-! ### Concrete example batches used by witnesses and counterexamples -/

/-- Record with lowercase level `error`. -/
def exRecError : JVal := .obj [("level", .str "error")]

/-- Record with level `info`. -/
def exRecInfo : JVal := .obj [("level", .str "info")]

/-- Record with capitalized level `Error`. -/
def exRecErrorCap : JVal := .obj [("level", .str "Error")]

/-- Spec scenario batch: 120 records, 30 with level `error`. -/
def exBatch120 : List JVal := List.replicate 30 exRecError ++ List.replicate 90 exRecInfo

/-- Batch of 120 records, 30 with capitalized level `Error`. -/
def exBatchCap : List JVal := List.replicate 30 exRecErrorCap ++ List.replicate 90 exRecInfo

/-- Error record with the given timestamp. -/
def exErrTs (s : String) : JVal := .obj [("level", .str "error"), ("timestamp", .str s)]

/-- Plain record with the given timestamp. -/
def exTs (s : String) : JVal := .obj [("timestamp", .str s)]

/-- Five error timestamps two seconds apart. -/
def exBurst5 : List JVal :=
  [exErrTs "2024-06-01T12:00:00", exErrTs "2024-06-01T12:00:02",
   exErrTs "2024-06-01T12:00:04", exErrTs "2024-06-01T12:00:06",
   exErrTs "2024-06-01T12:00:08"]

/-- Three error timestamps five seconds apart. -/
def exBurst3 : List JVal :=
  [exErrTs "2024-06-01T12:00:00", exErrTs "2024-06-01T12:00:05",
   exErrTs "2024-06-01T12:00:10"]

/-- Hour buckets 5, 3, 5, 3 in encounter order: hours 3 and 5 tie at two
records each. -/
def exHoursTie : List JVal :=
  [exTs "2024-01-01T05:00:00", exTs "2024-01-01T03:00:00",
   exTs "2024-01-01T05:30:00", exTs "2024-01-01T03:30:00"]

/-- Two records ninety minutes apart. -/
def exSpanBatch : List JVal := [exTs "2024-01-01T05:00:00", exTs "2024-01-01T06:30:00"]

/-- Two records with the same parseable timestamp. -/
def exSameTs : List JVal := [exTs "2024-01-01T05:00:00", exTs "2024-01-01T05:00:00"]

/-- One record whose `success` field is the string `yes`. -/
def exSuccessStr : List JVal := [.obj [("success", .str "yes")]]

/-- One record whose `level` is a number: `.lower()` raises on it. -/
def exBadBatch : List JVal := [.obj [("level", .num 5)]]

/-- Two-record batch mixing a naive and a `Z`-suffixed (aware) timestamp:
both parse, and sorting them raises `TypeError`. -/
def exMixed2 : List JVal := [exTs "2024-06-01T12:00:00", exTs "2024-06-01T12:00:05Z"]

/-- Two records with no timestamps at all. -/
def exPlain2 : List JVal := [exRecInfo, exRecInfo]

/-- Five error records two seconds apart, the middle three `Z`-suffixed
(aware) and the outer two naive: all five timestamps parse. -/
def exBurstMix : List JVal :=
  [exErrTs "2024-06-01T12:00:00", exErrTs "2024-06-01T12:00:02Z",
   exErrTs "2024-06-01T12:00:04Z", exErrTs "2024-06-01T12:00:06Z",
   exErrTs "2024-06-01T12:00:08"]

/-- Five error records two seconds apart, all `Z`-suffixed (aware). -/
def exBurstZ : List JVal :=
  [exErrTs "2024-06-01T12:00:00Z", exErrTs "2024-06-01T12:00:02Z",
   exErrTs "2024-06-01T12:00:04Z", exErrTs "2024-06-01T12:00:06Z",
   exErrTs "2024-06-01T12:00:08Z"]

/-- Literal output document of an analysis, re-read as an input document
(the JSON object printed by `main`, parsed back). -/
def resultDoc (a : AnalysisResult) : PyDict :=
  [("severity", .str a.severity), ("summary", .str a.summary),
   ("patterns", .arr (a.patterns.map .str)),
   ("recommendations", .arr (a.recommendations.map .str)),
   ("anomalies", .arr (a.anomalies.map .str)),
   ("insights", .arr (a.insights.map .str)),
   ("confidence", .num a.confidence)]

/-! ### Claim theorems -/

/-- C3: for a parsed document whose logs list is empty, the analyzer
returns the distinct terminal result with severity `low`, confidence 0,
summary `No logs available for analysis` and the single insight
`System appears inactive or logging disabled`. -/
theorem claim_C3 (d : PyDict) (h : pyGet d "logs" = some (.arr [])) :
    analyzeLogs d = emptyAnalysis
    ∧ (analyzeLogs d).severity = "low"
    ∧ (analyzeLogs d).confidence = 0
    ∧ (analyzeLogs d).summary = "No logs available for analysis"
    ∧ (analyzeLogs d).insights = ["System appears inactive or logging disabled"] := by
  have he : analyzeLogs d = emptyAnalysis := by
    unfold analyzeLogs analyzeLogsStep
    rw [pyGetD, h]
    rfl
  refine ⟨he, ?_, ?_, ?_, ?_⟩ <;> rw [he] <;> rfl

/-- Witness for C3 at the concrete document with an empty logs list. -/
theorem claim_C3_witness :
    analyzeLogs [("logs", .arr [])] = emptyAnalysis
    ∧ (analyzeLogs [("logs", .arr [])]).severity = "low"
    ∧ (analyzeLogs [("logs", .arr [])]).confidence = 0
    ∧ (analyzeLogs [("logs", .arr [])]).summary = "No logs available for analysis"
    ∧ (analyzeLogs [("logs", .arr [])]).insights
        = ["System appears inactive or logging disabled"] :=
  claim_C3 [("logs", .arr [])] rfl

/-- C2 counterexample: two well-formed two-record batches, one of them
mixing a naive and a `Z`-suffixed timestamp.  The claim predicts
confidence 0.3 for both (step function of the count alone, content
irrelevant); the mixed batch instead aborts at `timestamps.sort()` and
returns the fallback confidence 0.1. -/
theorem claim_C2_counterexample :
    exMixed2.length = exPlain2.length
    ∧ wfBatch exMixed2 = true ∧ wfBatch exPlain2 = true
    ∧ (analyzeLogs (logsDoc exPlain2)).confidence = 3/10
    ∧ (analyzeLogs (logsDoc exMixed2)).confidence = 1/10
    ∧ (analyzeLogs (logsDoc exMixed2)).confidence
        ≠ (analyzeLogs (logsDoc exPlain2)).confidence := by
  decide

/-- C2 amended: on well-formed batches whose parseable timestamps do not
mix aware and naive datetimes, the confidence field is the step function
of the record count alone (0 at 0, 0.3 under 10, 0.6 under 50, 0.8 under
100, 0.95 from 100 on), and equal-length such batches give equal
confidence regardless of content. -/
theorem claim_C2_amended (logs : List JVal) (h : wfBatch logs = true)
    (hu : tsUniform logs = true) :
    (analyzeLogs (logsDoc logs)).confidence =
      (if logs.length = 0 then 0
       else if logs.length < 10 then 3/10
       else if logs.length < 50 then 3/5
       else if logs.length < 100 then 4/5
       else 19/20 : Q)
    ∧ ∀ logs2 : List JVal, wfBatch logs2 = true → tsUniform logs2 = true →
        logs2.length = logs.length →
        (analyzeLogs (logsDoc logs2)).confidence = (analyzeLogs (logsDoc logs)).confidence := by
  have hconf : ∀ l : List JVal, wfBatch l = true → tsUniform l = true →
      (analyzeLogs (logsDoc l)).confidence = calculateConfidence l := by
    intro l hl hul
    rw [analyzeLogs_wf hl hul]
    by_cases hemp : l.isEmpty
    · have h0 : l.length = 0 := by
        cases l with
        | nil => rfl
        | cons x xs => simp [List.isEmpty] at hemp
      simp [hemp, emptyAnalysis, calculateConfidence, h0]
    · simp [hemp, analysisOf]
  constructor
  · rw [hconf logs h hu]; rfl
  · intro logs2 h2 hu2 hlen
    rw [hconf logs h hu, hconf logs2 h2 hu2]
    unfold calculateConfidence
    rw [hlen]

/-- Witness for C2 at the 120-record scenario batch and the empty batch. -/
theorem claim_C2_witness :
    (analyzeLogs (logsDoc exBatch120)).confidence = 19/20
    ∧ (analyzeLogs (logsDoc ([] : List JVal))).confidence = 0 :=
  ⟨((claim_C2_amended exBatch120 (by decide) (by decide)).1).trans (by decide),
   ((claim_C2_amended [] (by decide) (by decide)).1).trans (by decide)⟩

/-- C4: whenever the analysis body raises, `analyze_logs` returns (never
propagates) the medium fallback with summary `Analysis failed: ` plus the
error text, empty patterns, anomalies and insights, the single
recommendation `Review log analysis system` and confidence 0.1, while the
stdin wrapper uses `Check log analysis system` for its own failures. -/
theorem claim_C4 (logs : List JVal) (e : String) (h : coreAnalysis logs = .error e) :
    analyzeLogs (logsDoc logs) = analysisFallback e
    ∧ analysisFallback e = ⟨"medium", "Analysis failed: " ++ e, [],
        ["Review log analysis system"], [], [], 1/10⟩
    ∧ ∀ e2 : String, mainWrapper (.error e2) = ⟨"medium", "Analysis failed: " ++ e2, [],
        ["Check log analysis system"], [], [], 1/10⟩ := by
  refine ⟨?_, rfl, fun e2 => rfl⟩
  unfold analyzeLogs analyzeLogsStep
  rw [pyGet_logsDoc]
  have hne : logs.isEmpty = false := by
    cases hl : logs.isEmpty
    · rfl
    · exfalso
      have hnil : logs = [] := by
        cases logs with
        | nil => rfl
        | cons x xs => simp [List.isEmpty] at hl
      subst hnil
      rw [core_ok (by rfl : wfBatch [] = true) (by rfl : tsUniform [] = true)] at h
      exact Except.noConfusion h
  have ht : truthy (.arr logs) = true := by simp [truthy, hne]
  rw [ht]
  simp only [Bool.not_true, Bool.false_eq_true, if_false]
  rw [h]

/-- Witness for C4 at a batch whose level field is a number, which makes
the severity computation raise. -/
theorem claim_C4_witness :
    analyzeLogs (logsDoc exBadBatch)
      = analysisFallback "AttributeError: object has no attribute lower"
    ∧ mainWrapper (.error "x") = ⟨"medium", "Analysis failed: x", [],
        ["Check log analysis system"], [], [], 1/10⟩ := by
  have h := claim_C4 exBadBatch "AttributeError: object has no attribute lower" (by rfl)
  exact ⟨h.1, h.2.2 "x"⟩

/-- C9 counterexample: feeding the literal output document of an analysis
back in yields the empty-batch terminal result (severity `low`,
confidence 0), not the medium-severity confidence-0.1 fallback the claim
asserts. -/
theorem claim_C9_counterexample :
    analyzeLogs (resultDoc (analyzeLogs (logsDoc [JVal.obj [("level", JVal.str "info")]])))
      = emptyAnalysis
    ∧ emptyAnalysis.severity = "low" ∧ emptyAnalysis.confidence = 0
    ∧ emptyAnalysis.severity ≠ "medium" ∧ emptyAnalysis.confidence ≠ 1/10 := by
  decide

/-- C9 amended: the output document of an analysis has no `logs` key, so
re-analyzing it takes the empty-batch terminal branch: it does not crash
and returns the empty analysis, not the failure fallback. -/
theorem claim_C9_amended (a : AnalysisResult) :
    analyzeLogs (resultDoc a) = emptyAnalysis := by
  unfold analyzeLogs analyzeLogsStep
  have h7 : pyGet (resultDoc a) "logs" = none := by
    simp [resultDoc, pyGet]
  rw [pyGetD, h7]
  rfl

/-- C5 counterexample: five parseable error timestamps two seconds apart
(the claimed sorted-gap count is 4, exceeding 3), mixing aware and naive
values: the claim asserts the rapid-error anomaly is emitted with N = 4,
but `error_times.sort()` raises `TypeError` and the analysis returns the
fallback, whose anomaly list is empty. -/
theorem claim_C5_counterexample :
    wfBatch exBurstMix = true
    ∧ (errDTs exBurstMix).length = 5
    ∧ countAdjClose (sortInt ((errDTs exBurstMix).map dtKey)) = 4
    ∧ (analyzeLogs (logsDoc exBurstMix)).anomalies = []
    ∧ "Detected 4 rapid error sequences" ∉ (analyzeLogs (logsDoc exBurstMix)).anomalies
    ∧ (analyzeLogs (logsDoc exBurstMix)).confidence = 1/10 := by
  decide

/-- C5 amended: on well-formed batches whose parseable timestamps do not
mix aware and naive datetimes, the rapid-error-burst anomaly is present,
with N equal to the count of adjacent pairs of the ascending-sorted
parseable error/critical timestamps with gaps strictly under ten seconds,
exactly when that count exceeds three; the rest of the anomaly list
consists only of the user-volume entry and a duration-outlier entry. -/
theorem claim_C5_amended (logs : List JVal) (h : wfBatch logs = true)
    (hu : tsUniform logs = true) :
    ∃ restU restP,
      (analyzeLogs (logsDoc logs)).anomalies =
        (if 3 < rapidCount logs then
          ["Detected " ++ toString (rapidCount logs) ++ " rapid error sequences"] else [])
        ++ restU ++ restP
      ∧ restU ⊆ ["Unusually high user activity detected"]
      ∧ (∀ s ∈ restP, ∃ m : Nat, s = "Detected " ++ toString m ++ " performance outliers")
      ∧ rapidCount logs = countAdjClose (sortInt ((errDTs logs).map dtKey)) := by
  rw [analyzeLogs_wf h hu]
  by_cases hemp : logs.isEmpty
  · have h0 : rapidCount logs = 0 := by
      have hnil : logs = [] := by
        cases logs with
        | nil => rfl
        | cons x xs => simp [List.isEmpty] at hemp
      subst hnil
      rfl
    refine ⟨[], [], ?_, by simp, by simp, rfl⟩
    rw [if_pos hemp]
    simp [emptyAnalysis, h0]
  · rw [if_neg hemp]
    refine ⟨userActivityPart logs, perfOutlierPart logs, ?_, ?_, ?_, rfl⟩
    · rfl
    · unfold userActivityPart
      split
      · simp
      · simp
    · intro s hs
      unfold perfOutlierPart at hs
      dsimp only at hs
      split at hs
      · simp at hs
      · split at hs
        · simp at hs
        · split at hs
          · simp at hs
          · rw [List.mem_singleton] at hs
            exact ⟨_, hs⟩

/-- Witness for C5 at the two spec scenarios: five naive error
timestamps two seconds apart (four qualifying gaps, anomaly emitted with
N = 4) and three five seconds apart (two gaps, nothing emitted); the
all-aware variant of the burst also emits N = 4. -/
theorem claim_C5_witness :
    (∃ restU restP,
      (analyzeLogs (logsDoc exBurst5)).anomalies =
        (if 3 < rapidCount exBurst5 then
          ["Detected " ++ toString (rapidCount exBurst5) ++ " rapid error sequences"] else [])
        ++ restU ++ restP
      ∧ restU ⊆ ["Unusually high user activity detected"]
      ∧ (∀ s ∈ restP, ∃ m : Nat, s = "Detected " ++ toString m ++ " performance outliers")
      ∧ rapidCount exBurst5 = countAdjClose (sortInt ((errDTs exBurst5).map dtKey)))
    ∧ rapidCount exBurst5 = 4
    ∧ (analyzeLogs (logsDoc exBurst5)).anomalies = ["Detected 4 rapid error sequences"]
    ∧ rapidCount exBurst3 = 2
    ∧ (analyzeLogs (logsDoc exBurst3)).anomalies = []
    ∧ (analyzeLogs (logsDoc exBurstZ)).anomalies = ["Detected 4 rapid error sequences"] :=
  ⟨claim_C5_amended exBurst5 (by decide) (by decide), by decide, by decide, by decide,
    by decide, by decide⟩

/-- C7 counterexample: a record whose `success` field is the string `yes`
is excluded from the denominator under the claim (non-boolean), so no
reliability insight should be emitted; the code counts it (`is not None`)
and emits the zero-rate concern line. -/
theorem claim_C7_counterexample :
    (analyzeLogs (logsDoc exSuccessStr)).insights
      = ["System reliability concerns: 0.0% success rate"]
    ∧ ((exSuccessStr.map toObjD).filter
        (fun d => match pyGet d "success" with
          | some (JVal.bool _) => true
          | _ => false)).length = 0 := by decide

/-- C7 amended: on well-formed non-empty batches whose parseable
timestamps do not mix aware and naive datetimes (otherwise the analysis
aborts to the fallback with no insights at all), the reliability insight
is emitted exactly when at least one record has a `success` field that is
present and not null (the denominator also counts non-boolean values);
the numerator counts records whose `success` is exactly true, and the
bucket thresholds are strictly above 95 and strictly above 85 on the
exact rate. -/
theorem claim_C7_amended (logs : List JVal) (h : wfBatch logs = true)
    (hu : tsUniform logs = true) (hne : logs.isEmpty = false) :
    (analyzeLogs (logsDoc logs)).insights =
      userActionPart logs
      ++ (let den := ((logs.map toObjD).filter successPresent).length
          let num := ((logs.map toObjD).filter successTrue).length
          let rate : Q := (num : Q) / (den : Q) * 100
          if 0 < den then
            [if rate > 95 then
              "Excellent system reliability: " ++ fmt1 rate ++ "% success rate"
             else if rate > 85 then
              "Good system reliability: " ++ fmt1 rate ++ "% success rate"
             else "System reliability concerns: " ++ fmt1 rate ++ "% success rate"]
          else [])
      ++ timeSpanPart logs := by
  rw [analyzeLogs_wf h hu, if_neg (by simp [hne])]
  show insightsOf logs = _
  unfold insightsOf reliabilityPart reliabilityMsg totalOperations successfulOperations
  rfl

/-! ### Sorted-list and normalization helpers for the time-span claim -/

theorem sorted_head?_le {α : Type _} [LinearOrder α] {L : List α} (hs : L.Sorted (· ≤ ·))
    {a : α} (hh : L.head? = some a) : ∀ x ∈ L, a ≤ x := by
  cases L with
  | nil => simp at hh
  | cons b tl =>
    injection hh with hh
    subst hh
    intro x hx
    rcases List.mem_cons.mp hx with h | h
    · subst h; exact le_refl _
    · exact (List.sorted_cons.mp hs).1 x h

theorem sorted_le_getLast? {α : Type _} [LinearOrder α] :
    ∀ {L : List α}, L.Sorted (· ≤ ·) → ∀ {b : α}, L.getLast? = some b →
      ∀ x ∈ L, x ≤ b := by
  intro L
  induction L with
  | nil => intro _ b hb; simp at hb
  | cons c tl ih =>
    intro hs b hb x hx
    cases tl with
    | nil =>
      simp at hb hx
      subst hb
      subst hx
      exact le_refl _
    | cons d tl2 =>
      have hb2 : (d :: tl2).getLast? = some b := by
        rw [List.getLast?_cons_cons] at hb
        exact hb
      rcases List.mem_cons.mp hx with h | h
      · subst h
        exact (List.sorted_cons.mp hs).1 b (List.mem_of_getLast?_eq_some hb2)
      · exact ih (List.sorted_cons.mp hs).2 hb2 x h

theorem normalize_ne_zero {n : Int} {d : Nat} (hn : 0 < n) (hd : d ≠ 0) :
    Q.normalize n d ≠ (0 : Q) := by
  unfold Q.normalize
  rw [if_neg hd]
  intro hEq
  set g : Int := ((n.natAbs.gcd d : Nat) : Int) with hgdef
  have hnum : n / g = 0 := congrArg Q.num hEq
  have hgpos : 0 < n.natAbs.gcd d := Nat.gcd_pos_of_pos_right _ (Nat.pos_of_ne_zero hd)
  have hg0 : g ≠ 0 := by
    rw [hgdef]
    exact_mod_cast hgpos.ne'
  have hdvd : g ∣ n := by
    obtain ⟨k, hk⟩ := Nat.gcd_dvd_left n.natAbs d
    refine ⟨(k : Int), ?_⟩
    have habs : ((n.natAbs : Nat) : Int) = n := Int.natAbs_of_nonneg (le_of_lt hn)
    rw [← habs, hgdef]
    exact_mod_cast hk
  obtain ⟨k, hk⟩ := hdvd
  rw [hk, Int.mul_ediv_cancel_left _ hg0] at hnum
  subst hnum
  simp at hk
  rw [hk] at hn
  exact lt_irrefl 0 hn

/-- Witness for C7 at a batch of three `success: true` records (rate 100,
bucket `Excellent`) . -/
theorem claim_C7_witness :
    ((analyzeLogs (logsDoc (List.replicate 3 (JVal.obj [("success", JVal.bool true)])))).insights =
      userActionPart (List.replicate 3 (JVal.obj [("success", JVal.bool true)]))
      ++ (let den := (((List.replicate 3 (JVal.obj [("success", JVal.bool true)])).map
            toObjD).filter successPresent).length
          let num := (((List.replicate 3 (JVal.obj [("success", JVal.bool true)])).map
            toObjD).filter successTrue).length
          let rate : Q := (num : Q) / (den : Q) * 100
          if 0 < den then
            [if rate > 95 then
              "Excellent system reliability: " ++ fmt1 rate ++ "% success rate"
             else if rate > 85 then
              "Good system reliability: " ++ fmt1 rate ++ "% success rate"
             else "System reliability concerns: " ++ fmt1 rate ++ "% success rate"]
          else [])
      ++ timeSpanPart (List.replicate 3 (JVal.obj [("success", JVal.bool true)])))
    ∧ (analyzeLogs (logsDoc (List.replicate 3 (JVal.obj [("success", JVal.bool true)])))).insights
        = ["Excellent system reliability: 100.0% success rate"] :=
  ⟨claim_C7_amended _ (by decide) (by decide) (by decide), by decide⟩

/-- C8 counterexample: two records with the same parseable timestamp give
two parseable timestamps but a zero span, and the truthiness guard
`if time_span_hours:` then suppresses the insight entirely, against the
claim that two parseable timestamps suffice. -/
theorem claim_C8_counterexample :
    (exSameTs.filterMap tsOfLog).length = 2
    ∧ (analyzeLogs (logsDoc exSameTs)).insights = []
    ∧ "Analysis covers 0.0 hours of system activity"
        ∉ (analyzeLogs (logsDoc exSameTs)).insights := by
  decide

/-- C8 amended: on a well-formed batch whose parseable timestamps do not
mix aware and naive datetimes, when at least two records have parseable
timestamps AND the earliest and latest comparison keys differ, the
insights include the time-span entry with the elapsed hours (microsecond
span over 3 600 000 000) formatted to one decimal place; `mn`/`mx` are
characterized inside the statement as the least and greatest comparison
keys of the parseable timestamps. -/
theorem claim_C8_amended (logs : List JVal) (h : wfBatch logs = true)
    (hu : tsUniform logs = true) (mn mx : Int)
    (hmn : (sortInt ((allDTs logs).map dtKey)).head? = some mn)
    (hmx : (sortInt ((allDTs logs).map dtKey)).getLast? = some mx)
    (h2 : 2 ≤ (allDTs logs).length)
    (hne : mn ≠ mx) :
    mn ∈ (allDTs logs).map dtKey ∧ mx ∈ (allDTs logs).map dtKey
    ∧ (∀ t ∈ (allDTs logs).map dtKey, mn ≤ t ∧ t ≤ mx)
    ∧ ("Analysis covers " ++ fmt1 (((mx - mn : Int) : Q) / 3600000000)
        ++ " hours of system activity") ∈ (analyzeLogs (logsDoc logs)).insights := by
  have hsort : (sortInt ((allDTs logs).map dtKey)).Sorted (· ≤ ·) :=
    List.sorted_insertionSort _ _
  have hperm : List.Perm (sortInt ((allDTs logs).map dtKey)) ((allDTs logs).map dtKey) :=
    List.perm_insertionSort _ _
  have hmnS : mn ∈ sortInt ((allDTs logs).map dtKey) := by
    cases hS : sortInt ((allDTs logs).map dtKey) with
    | nil => rw [hS] at hmn; simp at hmn
    | cons a tl =>
      rw [hS] at hmn
      injection hmn with hmn
      subst hmn
      exact List.mem_cons_self _ _
  have hmxS : mx ∈ sortInt ((allDTs logs).map dtKey) := List.mem_of_getLast?_eq_some hmx
  have hmnT : mn ∈ (allDTs logs).map dtKey := hperm.subset hmnS
  have hmxT : mx ∈ (allDTs logs).map dtKey := hperm.subset hmxS
  have hbound : ∀ t ∈ (allDTs logs).map dtKey, mn ≤ t ∧ t ≤ mx := by
    intro t ht
    have htS : t ∈ sortInt ((allDTs logs).map dtKey) := hperm.mem_iff.mpr ht
    exact ⟨sorted_head?_le hsort hmn t htS, sorted_le_getLast? hsort hmx t htS⟩
  refine ⟨hmnT, hmxT, hbound, ?_⟩
  have hmnmx : mn < mx := lt_of_le_of_ne ((hbound mx hmxT).1) hne
  have hspan : timeSpanQ logs = ((mx - mn : Int) : Q) / 3600000000 := by
    unfold timeSpanQ
    dsimp only
    rw [if_neg (by omega)]
    have h1 : (sortInt ((allDTs logs).map dtKey)).getLastD 0 = mx := by
      rw [List.getLastD_eq_getLast? 0 _, hmx]
      rfl
    have h0 : (sortInt ((allDTs logs).map dtKey)).headD 0 = mn := by
      cases hS : sortInt ((allDTs logs).map dtKey) with
      | nil => rw [hS] at hmn; simp at hmn
      | cons a tl =>
        rw [hS] at hmn
        injection hmn with hmn
    rw [h1, h0]
  have hnz : ((mx - mn : Int) : Q) / 3600000000 ≠ 0 := by
    have hrfl : ((mx - mn : Int) : Q) / 3600000000
        = Q.normalize ((mx - mn) * ((1 : Nat) : Int)) (1 * 3600000000) := rfl
    rw [hrfl]
    apply normalize_ne_zero
    · have : (0 : Int) < mx - mn := by omega
      simpa using this
    · norm_num
  have hlemp : logs.isEmpty = false := by
    cases logs with
    | nil => simp [allDTs] at h2
    | cons x xs => rfl
  rw [analyzeLogs_wf h hu, if_neg (by simp [hlemp])]
  show _ ∈ insightsOf logs
  unfold insightsOf timeSpanPart
  rw [if_neg (by simp [hlemp])]
  dsimp only
  rw [hspan, if_neg hnz]
  simp [List.mem_append]

set_option maxRecDepth 4000 in
/-- C1 counterexample: a batch of 120 records of which 30 carry the
capitalized level `Error` has zero records with level exactly `error` or
`critical`, so the claim computes error_rate 0 and predicts severity
`low`; the code lowercases the level first and returns `critical`. -/
theorem claim_C1_counterexample :
    (analyzeLogs (logsDoc exBatchCap)).severity = "critical"
    ∧ ((exBatchCap.map toObjD).filter levelIsErrCrit).length = 0
    ∧ classifySeverity (((exBatchCap.map toObjD).filter levelIsErrCrit).length)
        exBatchCap.length = "low"
    ∧ (analyzeLogs (logsDoc exBatchCap)).severity
        ≠ classifySeverity (((exBatchCap.map toObjD).filter levelIsErrCrit).length)
            exBatchCap.length := by
  decide

/-- C1 amended: for every well-formed non-empty batch whose parseable
timestamps do not mix aware and naive datetimes (otherwise the analysis
aborts to the medium fallback), the severity is the four-band
classification (thresholds 1/5, 1/10, 1/20 on the exact rational error
rate) of the count of records whose ASCII-lowercased level is `error` or
`critical`, divided by the record count. -/
theorem claim_C1_amended (logs : List JVal) (h : wfBatch logs = true)
    (hu : tsUniform logs = true) (hne : logs.isEmpty = false) :
    (analyzeLogs (logsDoc logs)).severity =
      (if (((logs.map levelLower).count "error" + (logs.map levelLower).count "critical" : Nat) : ℚ)
            / (logs.length : ℚ) > 1/5 then "critical"
       else if (((logs.map levelLower).count "error"
            + (logs.map levelLower).count "critical" : Nat) : ℚ)
            / (logs.length : ℚ) > 1/10 then "high"
       else if (((logs.map levelLower).count "error"
            + (logs.map levelLower).count "critical" : Nat) : ℚ)
            / (logs.length : ℚ) > 1/20 then "medium"
       else "low") := by
  rw [analyzeLogs_wf h hu, if_neg (by simp [hne])]
  show severityOf logs = _
  unfold severityOf
  have hlen0 : logs.length ≠ 0 := by
    cases logs with
    | nil => simp [List.isEmpty] at hne
    | cons x xs => simp
  rw [if_neg hlen0]
  unfold classifySeverity
  set e := (logs.map levelLower).count "error" + (logs.map levelLower).count "critical" with he
  have hlen : (0 : ℚ) < (logs.length : ℚ) := by
    exact_mod_cast Nat.pos_of_ne_zero hlen0
  have key : ∀ k : Nat, 0 < k →
      (((1 : ℚ)/(k : ℚ) < (e : ℚ)/(logs.length : ℚ)) ↔ logs.length < k * e) := by
    intro k hk
    rw [div_lt_div_iff (by exact_mod_cast hk) hlen, one_mul]
    rw [show ((e : ℚ) * (k : ℚ)) = ((e * k : Nat) : ℚ) by push_cast; ring]
    rw [Nat.cast_lt, Nat.mul_comm]
  have k5 : ((1 : ℚ)/5 < (e : ℚ)/(logs.length : ℚ)) ↔ logs.length < 5 * e := by
    have := key 5 (by norm_num)
    simpa using this
  have k10 : ((1 : ℚ)/10 < (e : ℚ)/(logs.length : ℚ)) ↔ logs.length < 10 * e := by
    have := key 10 (by norm_num)
    simpa using this
  have k20 : ((1 : ℚ)/20 < (e : ℚ)/(logs.length : ℚ)) ↔ logs.length < 20 * e := by
    have := key 20 (by norm_num)
    simpa using this
  simp only [gt_iff_lt, k5, k10, k20]

/-- Witness for C1 at the 120-record spec scenario (30 lowercase `error`
records, rate 1/4, severity `critical`). -/
theorem claim_C1_witness :
    wfBatch exBatch120 = true
    ∧ (analyzeLogs (logsDoc exBatch120)).severity = "critical" := by
  refine ⟨by decide, ?_⟩
  have h := claim_C1_amended exBatch120 (by decide) (by decide) (by decide)
  rw [h]
  have h1 : (exBatch120.map levelLower).count "error" = 30 := by decide
  have h2 : (exBatch120.map levelLower).count "critical" = 0 := by decide
  have h3 : exBatch120.length = 120 := by decide
  rw [h1, h2, h3]
  rw [if_pos (by norm_num)]

/-! ### First-occurrence ordering of the tally, for the peak-hour claim -/

theorem firsts_pairwise [DecidableEq α] (l : List α) :
    (firsts l).Pairwise (fun a b => l.indexOf a ≤ l.indexOf b) := by
  induction l with
  | nil => simp [firsts]
  | cons x xs ih =>
    simp only [firsts]
    refine List.Pairwise.cons ?_ ?_
    · intro b _
      rw [List.indexOf_cons_self]
      exact Nat.zero_le _
    · refine List.Pairwise.imp_of_mem ?_ (List.Pairwise.filter _ ih)
      intro a b ha hb hr
      have hax : a ≠ x := by
        have := (List.mem_filter.mp ha).2
        simpa using this
      have hbx : b ≠ x := by
        have := (List.mem_filter.mp hb).2
        simpa using this
      rw [List.indexOf_cons_ne _ (Ne.symm hax), List.indexOf_cons_ne _ (Ne.symm hbx)]
      exact Nat.succ_le_succ hr

/-- C6 counterexample: hour buckets 5, 3, 5, 3 tie at two records each;
the claim predicts the lowest tied hour (3), the code reports the first
hour encountered (5), its dict insertion order. -/
theorem claim_C6_counterexample :
    exHoursTie.filterMap hourOfLog = [5, 3, 5, 3]
    ∧ (exHoursTie.filterMap hourOfLog).count 3 = 2
    ∧ (exHoursTie.filterMap hourOfLog).count 5 = 2
    ∧ (analyzeLogs (logsDoc exHoursTie)).patterns = ["Peak activity at hour 5:00"]
    ∧ "Peak activity at hour 3:00" ∉ (analyzeLogs (logsDoc exHoursTie)).patterns := by
  decide

/-- C6 amended: on a well-formed batch whose parseable timestamps do not
mix aware and naive datetimes (otherwise the analysis aborts to the
fallback, whose pattern list is empty), with at least one parseable
timestamp, the first pattern entry reports an hour of maximal bucket
count, and among the hours tied at that count the reported one is the
hour whose first record appears earliest in the batch (dict insertion
order), not the numerically lowest tied hour. -/
theorem claim_C6_amended (logs : List JVal) (h : wfBatch logs = true)
    (hu : tsUniform logs = true) (hne : logs.filterMap hourOfLog ≠ []) :
    ∃ hk : Nat,
      ((analyzeLogs (logsDoc logs)).patterns).head? =
        some ("Peak activity at hour " ++ toString hk ++ ":00")
      ∧ (∀ h2 : Nat,
          (logs.filterMap hourOfLog).count h2 ≤ (logs.filterMap hourOfLog).count hk)
      ∧ (∀ h2 : Nat,
          (logs.filterMap hourOfLog).count h2 = (logs.filterMap hourOfLog).count hk →
          (logs.filterMap hourOfLog).indexOf hk ≤ (logs.filterMap hourOfLog).indexOf h2) := by
  set hs := logs.filterMap hourOfLog with hhs
  have htne : tallyIns hs ≠ [] := by
    cases hcs : hs with
    | nil => exact absurd hcs hne
    | cons a tl =>
      rw [tally_spec]
      simp [firsts]
  obtain ⟨k, pre, n, post, hfm, hsplit, hpre, hpost⟩ := firstMax?_spec htne
  have hkn : (k, n) ∈ tallyIns hs := by
    rw [hsplit]
    simp
  have hkn2 : k ∈ firsts hs ∧ n = hs.count k := by
    rw [tally_spec] at hkn
    obtain ⟨a, ha, hfa⟩ := List.mem_map.mp hkn
    have h1 : a = k := congrArg Prod.fst hfa
    have h2 : hs.count a = n := congrArg Prod.snd hfa
    subst h1
    exact ⟨ha, h2.symm⟩
  have hmax : ∀ h2 : Nat, hs.count h2 ≤ n := by
    intro h2
    by_cases hmem : h2 ∈ hs
    · have hent : (h2, hs.count h2) ∈ tallyIns hs := by
        rw [tally_spec]
        exact List.mem_map.mpr ⟨h2, mem_firsts.mpr hmem, rfl⟩
      rw [hsplit] at hent
      rcases List.mem_append.mp hent with hin | hin
      · exact le_of_lt (hpre _ hin)
      · rcases List.mem_cons.mp hin with hin | hin
        · exact le_of_eq (congrArg Prod.snd hin)
        · exact hpost _ hin
    · rw [List.count_eq_zero.mpr hmem]
      exact Nat.zero_le _
  have hpair : (tallyIns hs).Pairwise (fun p q => hs.indexOf p.1 ≤ hs.indexOf q.1) := by
    rw [tally_spec]
    exact List.Pairwise.map _ (fun a b hab => hab) (firsts_pairwise hs)
  have hidx : ∀ h2 : Nat, hs.count h2 = hs.count k → hs.indexOf k ≤ hs.indexOf h2 := by
    intro h2 hcnt
    by_cases hk2 : h2 = k
    · subst hk2
      exact le_refl _
    · have hnpos : 0 < hs.count k := List.count_pos_iff.mpr (mem_firsts.mp hkn2.1)
      have hmem : h2 ∈ hs := List.count_pos_iff.mp (by omega)
      have hent : (h2, hs.count h2) ∈ tallyIns hs := by
        rw [tally_spec]
        exact List.mem_map.mpr ⟨h2, mem_firsts.mpr hmem, rfl⟩
      rw [hsplit] at hent
      rcases List.mem_append.mp hent with hin | hin
      · exfalso
        have hlt := hpre _ hin
        have he2 := hkn2.2
        simp only at hlt
        omega
      · rcases List.mem_cons.mp hin with hin | hin
        · exact absurd (congrArg Prod.fst hin) hk2
        · rw [hsplit] at hpair
          have hp2 := List.pairwise_append.mp hpair
          have hp3 := List.pairwise_cons.mp hp2.2.1
          exact hp3.1 _ hin
  have hlemp : logs.isEmpty = false := by
    cases hcl : logs with
    | nil =>
      rw [hhs, hcl] at hne
      simp at hne
    | cons x xs => rfl
  refine ⟨k, ?_, ?_, ?_⟩
  · rw [analyzeLogs_wf h hu, if_neg (by simp [hlemp])]
    show (patternsOf logs).head? = _
    unfold patternsOf
    dsimp only
    rw [← hhs, hfm]
    simp
  · intro h2
    rw [← hkn2.2]
    exact hmax h2
  · exact hidx

/-- Witness for C6 at the tied-hours batch (hours 5 and 3 tie; 5 is first
encountered and reported). -/
theorem claim_C6_witness :
    ∃ hk : Nat,
      ((analyzeLogs (logsDoc exHoursTie)).patterns).head? =
        some ("Peak activity at hour " ++ toString hk ++ ":00")
      ∧ (∀ h2 : Nat,
          (exHoursTie.filterMap hourOfLog).count h2 ≤ (exHoursTie.filterMap hourOfLog).count hk)
      ∧ (∀ h2 : Nat,
          (exHoursTie.filterMap hourOfLog).count h2 = (exHoursTie.filterMap hourOfLog).count hk →
          (exHoursTie.filterMap hourOfLog).indexOf hk
            ≤ (exHoursTie.filterMap hourOfLog).indexOf h2) :=
  claim_C6_amended exHoursTie (by decide) (by decide) (by decide)

/-- Witness for C8 at two records ninety minutes apart. -/
theorem claim_C8_witness :
    "Analysis covers 1.5 hours of system activity"
      ∈ (analyzeLogs (logsDoc exSpanBatch)).insights := by
  have h := (claim_C8_amended exSpanBatch (by decide) (by decide)
    63839682000000000 63839687400000000
    (by decide) (by decide) (by decide) (by decide)).2.2.2
  have he : "Analysis covers "
      ++ fmt1 (((63839687400000000 - 63839682000000000 : Int) : Q) / 3600000000)
      ++ " hours of system activity" = "Analysis covers 1.5 hours of system activity" := by
    decide
  rw [← he]
  exact h

/-! ### The Atlas audio analyzer (`atlas_analyzer.py`)

Embedding of `AtlasAudioAnalyzer.analyze_atlas_data` and its helpers.
The wall-clock `timestamp` field of both the normal and the fallback
dictionary is omitted: it is `datetime.now()` and carries no analyzed
information.  The local `issues`/`recommendations` lists of the signal
and network helpers are dropped: the caller only reads the numeric
scores. -/

instance : Neg Q := ⟨fun a => ⟨-a.num, a.den⟩⟩

/-- The audio pattern table of `AtlasAudioAnalyzer.__init__`, in dict
insertion order.  The second entry, `phantom_power`, contains the branch
`+48v`, whose leading `+` has nothing to quantify: compiling it raises
`re.error: nothing to repeat`, which `re.search` raises at call time. -/
def audio_patterns : List (String × String) :=
  [("signal_clipping", "clipping|overload|distortion|peak.*limit"),
   ("phantom_power", "phantom.*power|+48v|condenser.*mic"),
   ("feedback", "feedback|howl|oscillation|ringing"),
   ("dropout", "dropout|silence|no.*signal|mute.*stuck"),
   ("dante_network", "dante.*error|network.*audio|sync.*loss|clock.*error"),
   ("dsp_overload", "dsp.*overload|processing.*limit|cpu.*high"),
   ("scene_recall", "scene.*recall|preset.*load|configuration.*change"),
   ("eq_saturation", "eq.*clip|filter.*overload|resonance"),
   ("compressor_pumping", "compressor.*pump|dynamics.*issue|gain.*reduce"),
   ("input_fault", "input.*fault|mic.*error|line.*problem")]

/-- Normal analysis record of `analyze_atlas_data` (the dict literal of
lines 54-70 with the computed fields filled in). -/
structure AtlasAnalysis where
  severity : String
  category : String
  summary : String
  audioPatterns : List String
  hardwareRecommendations : List String
  configurationIssues : List String
  signalQuality : Q
  latencyMs : Q
  processingLoad : Q
  networkStability : Q
  audioInsights : List String
  confidence : Q
deriving DecidableEq

/-- Result of `analyze_atlas_data`: a normal analysis or the
exception-fallback dictionary of lines 103-109 (its fixed fields as
payload). -/
inductive AtlasResult where
  | ok (a : AtlasAnalysis) : AtlasResult
  | failed (err severity : String) (confidence : Q) : AtlasResult
deriving DecidableEq

/-- Python `for log_entry in logs` over an arbitrary value: a list
yields its elements, a string its characters (each a one-character
string), a dict its keys, anything else raises `TypeError`. -/
def toIterE : JVal → Except String (List JVal)
  | .arr l => .ok l
  | .str s => .ok (s.data.map (fun c => JVal.str (String.mk [c])))
  | .obj l => .ok (l.map (fun kv => JVal.str kv.1))
  | _ => .error "TypeError: object is not iterable"

/-- Lowercased message of a log entry (lines 115-116). -/
def getMsgLower (log : JVal) : Except String String := do
  let d ← asObj log
  asStrLower (pyGetD d "message" (.str ""))

/-- Inner pattern loop of `_analyze_audio_patterns` (lines 118-120) for
one message, over a pattern table. -/
def patsForMsg (msg : String) : List (String × String) → Except String (List String)
  | [] => .ok []
  | (name, rgx) :: rest => do
    let b ← searchStrE rgx msg
    let r ← patsForMsg msg rest
    .ok (if b then (name ++ ": " ++ rgx) :: r else r)

/-- Lines 111-122 of `atlas_analyzer.py` (`_analyze_audio_patterns`).
The final `list(set(...))` has unspecified CPython ordering; it is
modelled as first-occurrence deduplication (the only value reachable
without an exception is the empty list, where the orderings agree). -/
def analyzeAudioPatterns (logs : List JVal) : Except String (List String) := do
  let found ← mapE (fun log => do
    let m ← getMsgLower log
    patsForMsg m audio_patterns) logs
  .ok (firsts found.flatten)

/-- Per-input penalty of `_analyze_signal_levels` (lines 133-139). -/
def inputPenalty (acc v : Q) : Q :=
  if v > -3 then acc - 15 else if v < -35 then acc - 10 else acc

/-- Per-output penalty of `_analyze_signal_levels` (lines 142-145). -/
def outputPenalty (acc v : Q) : Q :=
  if v > -6 then acc - 20 else acc

/-- Error-monad left fold (a Python `for` loop with an accumulator). -/
def foldE (f : β → α → Except String β) : β → List α → Except String β
  | b, [] => .ok b
  | b, x :: xs => do
    let b2 ← f b x
    foldE f b2 xs

/-- Lines 124-147 of `atlas_analyzer.py` (`_analyze_signal_levels`),
reduced to the quality score the caller reads; comparing a non-numeric
level raises. -/
def analyzeSignalLevels (input_levels output_levels : JVal) : Except String Q := do
  let ins ← asObj input_levels
  let q1 ← foldE (fun acc kv => do
    let v ← asNum kv.2
    .ok (inputPenalty acc v)) (100 : Q) ins
  let outs ← asObj output_levels
  foldE (fun acc kv => do
    let v ← asNum kv.2
    .ok (outputPenalty acc v)) q1 outs

/-- Lines 149-165 of `atlas_analyzer.py` (`_analyze_network_performance`):
stability score and latency. -/
def analyzeNetworkPerformance (metrics : PyDict) : Except String (Q × Q) := do
  let latency ← asNum (pyGetD metrics "networkLatency" (.num 0))
  .ok (if latency > 50 then ((50 : Q), latency)
    else if latency > 20 then ((75 : Q), latency)
    else ((100 : Q), latency))

/-- Lines 167-174 of `atlas_analyzer.py` (`_analyze_dsp_performance`):
the load percentage (the unused status string also compares the load, so
a non-numeric load raises either way). -/
def analyzeDspPerformance (metrics : PyDict) : Except String Q :=
  asNum (pyGetD metrics "cpuLoad" (.num 0))

/-- Lines 176-199 of `atlas_analyzer.py`
(`_generate_atlas_recommendations`): hardware, configuration, insights. -/
def generateAtlasRecommendations (signalQuality networkStability processingLoad : Q) :
    List String × List String × List String :=
  let config1 := if signalQuality < 80 then
    ["Review input gain structure - some signals may be too hot or too low"] else []
  let insight1 := if signalQuality < 80 then
    ["Proper gain staging is critical for audio quality"] else []
  let hardware := if networkStability < 90 then
    ["Check Dante network configuration and switch settings"] else []
  let insight2 := if networkStability < 90 then
    ["Dante audio requires dedicated gigabit network infrastructure"] else []
  let config2 := if processingLoad > 85 then
    ["Consider reducing DSP processing load or upgrading processor"] else []
  let insight3 := if processingLoad > 85 then
    ["High DSP load can cause audio dropouts and latency"] else []
  (hardware, config1 ++ config2, insight1 ++ insight2 ++ insight3)

/-- Lines 201-218 of `atlas_analyzer.py` (`_calculate_severity`). -/
def calculateAtlasSeverity (signalQuality processingLoad networkStability : Q) : String :=
  if signalQuality < 60 ∨ processingLoad > 95 ∨ networkStability < 50 then "critical"
  else if signalQuality < 80 ∨ processingLoad > 85 ∨ networkStability < 80 then "moderate"
  else if signalQuality < 95 ∨ processingLoad > 75 ∨ networkStability < 95 then "minor"
  else "optimal"

/-- Lines 220-232 of `atlas_analyzer.py` (`_generate_summary`). -/
def generateAtlasSummary (severity : String) (signalQuality processingLoad : Q) : String :=
  if severity = "optimal" then
    "Atlas system operating optimally. Signal quality: " ++ fmt0 signalQuality
      ++ "%, Processing load: " ++ fmt0 processingLoad ++ "%"
  else if severity = "minor" then
    "Atlas system stable with minor issues. Monitor signal levels and processing load."
  else if severity = "moderate" then
    "Atlas system requires attention. Signal quality: " ++ fmt0 signalQuality
      ++ "%, Processing: " ++ fmt0 processingLoad ++ "%"
  else "CRITICAL: Atlas system issues detected. Immediate attention required."

/-- Body of the `try` of `analyze_atlas_data` (lines 48-101);
`processorData` is extracted by the source but never used. -/
def atlasCore (d : PyDict) : Except String AtlasAnalysis := do
  let logs ← toIterE (pyGetD d "logs" (.arr []))
  let audioPatterns ← analyzeAudioPatterns logs
  let metrics ← asObj (pyGetD d "metrics" (.obj []))
  let signalQuality ← analyzeSignalLevels (pyGetD metrics "inputLevels" (.obj []))
    (pyGetD metrics "outputLevels" (.obj []))
  let net ← analyzeNetworkPerformance metrics
  let processingLoad ← analyzeDspPerformance metrics
  let recs := generateAtlasRecommendations signalQuality net.1 processingLoad
  let severity := calculateAtlasSeverity signalQuality processingLoad net.1
  .ok ⟨severity, "performance", generateAtlasSummary severity signalQuality processingLoad,
    audioPatterns, recs.1, recs.2.1, signalQuality, net.2, processingLoad, net.1,
    recs.2.2, 85⟩

/-- Lines 46-109 of `atlas_analyzer.py` (`analyze_atlas_data`): any
exception becomes the fixed fallback dictionary. -/
def analyze_atlas_data (d : PyDict) : AtlasResult :=
  match atlasCore d with
  | .ok a => .ok a
  | .error e => .failed ("Atlas analysis failed: " ++ e) "critical" 0

/-- Numeric-valued JSON object (or absent), the well-formed shape of the
level maps. -/
def qvalsNum : Option JVal → Bool
  | none => true
  | some (.obj m) => m.all (fun kv => match kv.2 with | .num _ => true | _ => false)
  | some _ => false

/-- Numeric or absent scalar metric. -/
def numOrAbsent : Option JVal → Bool
  | none => true
  | some (.num _) => true
  | some _ => false

/-- Well-formed metrics of an atlas input document. -/
def atlasMetricsWF (d : PyDict) : Bool :=
  match pyGet d "metrics" with
  | none => true
  | some (.obj m) => qvalsNum (pyGet m "inputLevels") && qvalsNum (pyGet m "outputLevels")
      && numOrAbsent (pyGet m "networkLatency") && numOrAbsent (pyGet m "cpuLoad")
  | some _ => false

/-- The pattern loop raises on every message: the first pattern compiles
and searches fine, the second (`phantom_power`) fails to compile. -/
theorem patsForMsg_err (msg : String) :
    patsForMsg msg audio_patterns = .error "nothing to repeat" := by
  have e1 : searchStrE "clipping|overload|distortion|peak.*limit" msg
      = .ok (searchStrTotal "clipping|overload|distortion|peak.*limit" msg) :=
    searchStrE_ok _ _ (by decide)
  have e2 : searchStrE "phantom.*power|+48v|condenser.*mic" msg
      = .error "nothing to repeat" := by
    have hc : compile "phantom.*power|+48v|condenser.*mic"
        = Except.error "nothing to repeat" := rfl
    unfold searchStrE
    rw [hc]
    rfl
  simp only [audio_patterns, patsForMsg, e1, e2, bind_ok, bind_error]

/-- Every log entry makes the audio-pattern body raise: a non-dict entry
or non-string message raises before any search, a string message reaches
the invalid `phantom_power` pattern. -/
theorem logEntry_err (log : JVal) :
    ∃ e, (do
      let m ← getMsgLower log
      patsForMsg m audio_patterns) = (Except.error e : Except String (List String)) := by
  cases hml : getMsgLower log with
  | error e => exact ⟨e, by simp [hml]⟩
  | ok m => exact ⟨"nothing to repeat", by simp [hml, patsForMsg_err]⟩

theorem foldE_num_ok (h : Q → Q → Q) :
    ∀ lv : List (String × JVal),
      lv.all (fun kv => match kv.2 with | .num _ => true | _ => false) = true →
      ∀ acc : Q, ∃ q, foldE (fun acc kv => do
        let v ← asNum kv.2
        .ok (h acc v)) acc lv = .ok q := by
  intro lv
  induction lv with
  | nil => intro _ acc; exact ⟨acc, rfl⟩
  | cons kv rest ih =>
    intro hall acc
    simp only [List.all_cons, Bool.and_eq_true] at hall
    obtain ⟨hkv, hrest⟩ := hall
    cases hv : kv.2 with
    | num qv =>
      obtain ⟨q2, hq2⟩ := ih hrest (h acc qv)
      refine ⟨q2, ?_⟩
      simp only [foldE, hv, asNum, bind_ok]
      exact hq2
    | null => rw [hv] at hkv; simp at hkv
    | bool b => rw [hv] at hkv; simp at hkv
    | str s => rw [hv] at hkv; simp at hkv
    | arr a => rw [hv] at hkv; simp at hkv
    | obj o => rw [hv] at hkv; simp at hkv

theorem qvalsNum_dict {o : Option JVal} (h : qvalsNum o = true) :
    ∃ dd : PyDict, o.getD (.obj []) = .obj dd
      ∧ dd.all (fun kv => match kv.2 with | .num _ => true | _ => false) = true := by
  cases o with
  | none => exact ⟨[], rfl, rfl⟩
  | some v =>
    cases v with
    | obj m => exact ⟨m, rfl, by simpa [qvalsNum] using h⟩
    | null => simp [qvalsNum] at h
    | bool b => simp [qvalsNum] at h
    | num q => simp [qvalsNum] at h
    | str s => simp [qvalsNum] at h
    | arr l => simp [qvalsNum] at h

theorem analyzeSignalLevels_ok {inO outO : Option JVal}
    (hin : qvalsNum inO = true) (hout : qvalsNum outO = true) :
    ∃ q, analyzeSignalLevels (inO.getD (.obj [])) (outO.getD (.obj [])) = .ok q := by
  obtain ⟨d1, hd1, ha1⟩ := qvalsNum_dict hin
  obtain ⟨d2, hd2, ha2⟩ := qvalsNum_dict hout
  rw [hd1, hd2]
  unfold analyzeSignalLevels
  obtain ⟨q1, hq1⟩ := foldE_num_ok inputPenalty d1 ha1 100
  obtain ⟨q2, hq2⟩ := foldE_num_ok outputPenalty d2 ha2 q1
  refine ⟨q2, ?_⟩
  simp only [asObj, bind_ok, hq1, hq2]

theorem asNum_getD_ok {o : Option JVal} (h : numOrAbsent o = true) :
    ∃ q, asNum (o.getD (.num 0)) = .ok q := by
  cases o with
  | none => exact ⟨0, rfl⟩
  | some v =>
    cases v with
    | num q => exact ⟨q, rfl⟩
    | null => simp [numOrAbsent] at h
    | bool b => simp [numOrAbsent] at h
    | str s => simp [numOrAbsent] at h
    | arr l => simp [numOrAbsent] at h
    | obj o2 => simp [numOrAbsent] at h

/-- C10: with a non-empty logs list the atlas analyzer always returns
its exception fallback (error text prefixed `Atlas analysis failed:`,
severity `critical`, confidence 0), because the `phantom_power` pattern
`phantom.*power|+48v|condenser.*mic` is an invalid regular expression
(the `+48v` branch starts with an unquantifiable `+`), raising on the
first message scan; with an empty logs list and well-formed metrics the
error is never triggered and a normal analysis is returned. -/
theorem claim_C10 (d : PyDict) (l : List JVal) (hl : pyGet d "logs" = some (.arr l)) :
    (l ≠ [] → ∃ e, analyze_atlas_data d = .failed ("Atlas analysis failed: " ++ e) "critical" 0)
    ∧ (l = [] → atlasMetricsWF d = true → ∃ a, analyze_atlas_data d = .ok a)
    ∧ compile "phantom.*power|+48v|condenser.*mic" = .error "nothing to repeat" := by
  have hgl : pyGetD d "logs" (.arr []) = .arr l := by
    rw [pyGetD, hl]
    rfl
  refine ⟨?_, ?_, rfl⟩
  · intro hne
    cases l with
    | nil => exact absurd rfl hne
    | cons x xs =>
      obtain ⟨e, he⟩ := logEntry_err x
      have haud : analyzeAudioPatterns (x :: xs) = .error e := by
        unfold analyzeAudioPatterns
        have hmap : mapE (fun log => do
            let m ← getMsgLower log
            patsForMsg m audio_patterns) (x :: xs)
            = (Except.error e : Except String (List (List String))) := by
          simp only [mapE]
          rw [he]
          rfl
        rw [hmap]
        rfl
      have hcore : atlasCore d = .error e := by
        unfold atlasCore
        rw [hgl]
        simp only [toIterE, bind_ok, haud, bind_error]
      refine ⟨e, ?_⟩
      unfold analyze_atlas_data
      rw [hcore]
  · intro hnil hwf
    subst hnil
    have hcoreok : ∃ a, atlasCore d = .ok a := by
      unfold atlasCore
      rw [hgl]
      simp only [toIterE, bind_ok]
      unfold atlasMetricsWF at hwf
      cases hm : pyGet d "metrics" with
      | none =>
        rw [pyGetD, hm]
        exact ⟨_, rfl⟩
      | some mv =>
        rw [hm] at hwf
        cases mv with
        | obj m =>
          simp only [Bool.and_eq_true] at hwf
          obtain ⟨⟨⟨hin, hout⟩, hlat⟩, hcpu⟩ := hwf
          rw [pyGetD, hm]
          simp only [Option.getD_some, asObj, bind_ok, analyzeAudioPatterns, mapE,
            bind_ok, firsts]
          obtain ⟨qs, hqs⟩ := analyzeSignalLevels_ok hin hout
          obtain ⟨ql, hql⟩ := asNum_getD_ok hlat
          obtain ⟨qc, hqc⟩ := asNum_getD_ok hcpu
          rw [← show pyGetD m "inputLevels" (.obj [])
              = (pyGet m "inputLevels").getD (.obj []) from rfl] at hqs
          rw [← show pyGetD m "outputLevels" (.obj [])
              = (pyGet m "outputLevels").getD (.obj []) from rfl] at hqs
          rw [hqs]
          simp only [bind_ok]
          unfold analyzeNetworkPerformance analyzeDspPerformance
          rw [show pyGetD m "networkLatency" (.num 0)
              = (pyGet m "networkLatency").getD (.num 0) from rfl, hql]
          rw [show pyGetD m "cpuLoad" (.num 0)
              = (pyGet m "cpuLoad").getD (.num 0) from rfl, hqc]
          simp only [bind_ok]
          exact ⟨_, rfl⟩
        | null => simp at hwf
        | bool b => simp at hwf
        | num q => simp at hwf
        | str s => simp at hwf
        | arr a => simp at hwf
    obtain ⟨a, ha⟩ := hcoreok
    refine ⟨a, ?_⟩
    unfold analyze_atlas_data
    rw [ha]

/-- Witness for C10: a one-record document is rejected with the fallback
(the concrete error text is the regex compile failure), and an
empty-logs document with no metrics yields a normal analysis. -/
theorem claim_C10_witness :
    (∃ e, analyze_atlas_data [("logs", .arr [.obj [("message", .str "clipping detected")]])]
      = .failed ("Atlas analysis failed: " ++ e) "critical" 0)
    ∧ (∃ a, analyze_atlas_data [("logs", .arr ([] : List JVal))] = .ok a)
    ∧ analyze_atlas_data [("logs", .arr [.obj [("message", .str "clipping detected")]])]
      = .failed "Atlas analysis failed: nothing to repeat" "critical" 0 :=
  ⟨(claim_C10 [("logs", .arr [.obj [("message", .str "clipping detected")]])] _ rfl).1
      (by exact List.cons_ne_nil _ _),
   (claim_C10 [("logs", .arr ([] : List JVal))] [] rfl).2.1 rfl (by decide),
   by decide⟩

end SBTC
